import Mathlib

set_option maxHeartbeats 1000000

namespace DesignateDns

/-!
Shallow embedding of `designate_tempest_plugin/services/dns/json/base.py`,
the base Tempest REST client for the Designate DNS API.  Python dicts that
hold JSON data are modelled by `JsonVal`, exceptions by `Except DnsError`,
and the messages emitted through the logger by an explicit `logs` list.
-/

/-- Log severity levels used by the module (`LOG.debug`, `LOG.warn`). -/
inductive LogLevel where
  | debug
  | warn
deriving DecidableEq, Repr

/-- One message emitted through the module logger. -/
structure LogEntry where
  level : LogLevel
  message : String
deriving DecidableEq, Repr

/-- The exception *classes* (kinds) that can cross this module's boundary;
`handle_errors` compares caught exceptions by class. -/
inductive ErrorKind where
  | invalidContentType
  | invalidHttpSuccessCode
  | jsonDecodeError
  | valueError
  | transportFailure
deriving DecidableEq, Repr

/-- The exceptions themselves: `lib_exc.InvalidContentType`,
`lib_exc.InvalidHttpSuccessCode`, `json` decode errors, `ValueError` from
`int(...)`, and errors raised inside the inherited HTTP transport. -/
inductive DnsError where
  | invalidContentType
  | invalidHttpSuccessCode (expected : List Int) (got : Int)
  | jsonDecodeError
  | valueError
  | transportFailure (msg : String)
deriving DecidableEq, Repr

/-- The class of an exception, used by the `except ignored_errors` clause. -/
def DnsError.kind : DnsError → ErrorKind
  | .invalidContentType => .invalidContentType
  | .invalidHttpSuccessCode _ _ => .invalidHttpSuccessCode
  | .jsonDecodeError => .jsonDecodeError
  | .valueError => .valueError
  | .transportFailure _ => .transportFailure

/-- The dynamically typed `resp.status` value: normally an `int`, but the
source's `expected_success` comment notes it is sometimes a string. -/
inductive StatusVal where
  | int (n : Int)
  | str (s : String)
deriving DecidableEq, Repr


/-- `isinstance(read_code, int)`. -/
def StatusVal.isInt : StatusVal → Bool
  | .int _ => true
  | .str _ => false

/-- The response-metadata dict handed back by the transport: `resp.status`
and `resp['content-type']`. -/
structure HttpResponse where
  status : StatusVal
  contentType : String
deriving DecidableEq, Repr

/-- Result of running one client operation: the Python return value or the
raised exception, together with the log messages emitted on the way. -/
structure Res (α : Type) where
  result : Except DnsError α
  logs : List LogEntry

/-! ### JSON values and `json.dumps` (the serializer)

`oslo_serialization.jsonutils` delegates to the standard `json` module:
`dumps` renders with the default separators `", "` and `": "`, and `loads`
is a standard JSON text parser.  Both are modelled executably below. -/

/-- JSON values: the structures `json.loads` produces and `json.dumps`
accepts (floats are not modelled; the API payloads are int-valued). -/
inductive JsonVal where
  | null
  | bool (b : Bool)
  | num (n : Int)
  | str (s : String)
  | arr (elems : List JsonVal)
  | obj (fields : List (String × JsonVal))

/-- The decimal digit `d` as a character (`d < 10`). -/
def digitChar (d : Nat) : Char := Char.ofNat (48 + d)

/-- Decimal digits of `n`, most significant first, via a fuel argument that
keeps the recursion structural (`fuel ≥ n` suffices). -/
def natDigitsAux : Nat → Nat → List Char
  | 0, _ => []
  | fuel + 1, n => if n = 0 then [] else natDigitsAux fuel (n / 10) ++ [digitChar (n % 10)]

/-- Decimal rendering of a natural number, as `json.dumps` prints it. -/
def renderNat (n : Nat) : List Char :=
  if n = 0 then ['0'] else natDigitsAux n n

/-- Lowercase hexadecimal digit for `d < 16`. -/
def lowerHexDigit (d : Nat) : Char :=
  if d < 10 then Char.ofNat (48 + d) else Char.ofNat (87 + d)

/-- JSON string escaping of one character, as `json.dumps` emits it:
quote, backslash and the named control characters get two-character
escapes, the remaining control characters get `\u00xx`. -/
def escChar (c : Char) : List Char :=
  if c = '"' then ['\\', '"']
  else if c = '\\' then ['\\', '\\']
  else if c = '\n' then ['\\', 'n']
  else if c = '\r' then ['\\', 'r']
  else if c = '\t' then ['\\', 't']
  else if c.toNat = 8 then ['\\', 'b']
  else if c.toNat = 12 then ['\\', 'f']
  else if c.toNat < 32 then
    ['\\', 'u', '0', '0', lowerHexDigit (c.toNat / 16), lowerHexDigit (c.toNat % 16)]
  else [c]

/-- JSON string escaping of a character list. -/
def escChars : List Char → List Char
  | [] => []
  | c :: cs => escChar c ++ escChars cs

mutual

/-- `json.dumps` rendering of a JSON value (default separators). -/
def renderJson : JsonVal → List Char
  | .null => "null".data
  | .bool true => "true".data
  | .bool false => "false".data
  | .num (.ofNat n) => renderNat n
  | .num (.negSucc m) => '-' :: renderNat (m + 1)
  | .str s => '"' :: (escChars s.data ++ ['"'])
  | .arr xs => '[' :: (renderArr xs ++ [']'])
  | .obj fs => '{' :: (renderObj fs ++ ['}'])

/-- Comma-separated rendering of array elements. -/
def renderArr : List JsonVal → List Char
  | [] => []
  | [x] => renderJson x
  | x :: y :: xs => renderJson x ++ ',' :: ' ' :: renderArr (y :: xs)

/-- Comma-separated rendering of object fields (`"key": value`). -/
def renderObj : List (String × JsonVal) → List Char
  | [] => []
  | [(k, v)] => '"' :: (escChars k.data ++ ['"']) ++ ':' :: ' ' :: renderJson v
  | (k, v) :: f :: fs =>
      ('"' :: (escChars k.data ++ ['"']) ++ ':' :: ' ' :: renderJson v) ++
        ',' :: ' ' :: renderObj (f :: fs)

end

/-- `json.dumps` on a JSON value, producing the request body text. -/
def json_dumps (v : JsonVal) : String := String.mk (renderJson v)

/-! ### `json.loads` (the JSON text parser) -/

/-- JSON insignificant whitespace. -/
def isWsChar (c : Char) : Bool := c = ' ' || c = '\t' || c = '\n' || c = '\r'

/-- Drop leading whitespace. -/
def skipWs : List Char → List Char
  | [] => []
  | c :: cs => if isWsChar c then skipWs cs else c :: cs

/-- Consume the literal characters `ps` from the front of the input. -/
def expectChars : List Char → List Char → Option (List Char)
  | [], cs => some cs
  | _ :: _, [] => none
  | p :: ps, c :: cs => if c = p then expectChars ps cs else none

/-- Decode a two-character escape (`\"`, `\\`, `\/`, `\b`, `\f`, `\n`,
`\r`, `\t`). -/
def escDecode (e : Char) : Option Char :=
  if e = '"' then some '"'
  else if e = '\\' then some '\\'
  else if e = '/' then some '/'
  else if e = 'b' then some (Char.ofNat 8)
  else if e = 'f' then some (Char.ofNat 12)
  else if e = 'n' then some '\n'
  else if e = 'r' then some '\r'
  else if e = 't' then some '\t'
  else none

/-- Value of one hexadecimal digit. -/
def hexVal (c : Char) : Option Nat :=
  if 48 ≤ c.toNat ∧ c.toNat ≤ 57 then some (c.toNat - 48)
  else if 97 ≤ c.toNat ∧ c.toNat ≤ 102 then some (c.toNat - 87)
  else if 65 ≤ c.toNat ∧ c.toNat ≤ 70 then some (c.toNat - 55)
  else none

/-- Parse the body of a JSON string after its opening quote; returns the
decoded characters and the input after the closing quote. -/
def parseStringBody : List Char → Option (List Char × List Char)
  | [] => none
  | c :: rest =>
    if c = '"' then some ([], rest)
    else if c = '\\' then
      match rest with
      | [] => none
      | e :: r =>
        if e = 'u' then
          match r with
          | h1 :: h2 :: h3 :: h4 :: r2 =>
            match hexVal h1, hexVal h2, hexVal h3, hexVal h4 with
            | some a, some b, some c2, some d =>
              (parseStringBody r2).map
                (fun p => (Char.ofNat (4096 * a + 256 * b + 16 * c2 + d) :: p.1, p.2))
            | _, _, _, _ => none
          | _ => none
        else
          match escDecode e with
          | some d => (parseStringBody r).map (fun p => (d :: p.1, p.2))
          | none => none
    else (parseStringBody rest).map (fun p => (c :: p.1, p.2))

/-- Decimal digit test on characters. -/
def isDigitChar (c : Char) : Bool := 48 ≤ c.toNat && c.toNat ≤ 57

/-- Split off the longest leading run of decimal digits. -/
def takeDigits : List Char → List Char × List Char
  | [] => ([], [])
  | c :: rest =>
    if isDigitChar c then
      let p := takeDigits rest
      (c :: p.1, p.2)
    else ([], c :: rest)

/-- Numeric value of a digit character. -/
def digitVal (c : Char) : Nat := c.toNat - 48

/-- Accumulate decimal digits, most significant first. -/
def foldDigits : Nat → List Char → Nat
  | acc, [] => acc
  | acc, c :: cs => foldDigits (acc * 10 + digitVal c) cs

/-- Parse a nonempty run of decimal digits as a natural number. -/
def parseNat (cs : List Char) : Option (Nat × List Char) :=
  match takeDigits cs with
  | ([], _) => none
  | (ds, rest) => some (foldDigits 0 ds, rest)

/-- Python's `int(str)`: optional surrounding whitespace, optional sign,
then decimal digits; anything else raises `ValueError` (`none`). -/
def pyIntOfString (s : String) : Option Int :=
  let cs := skipWs s.data
  let signed : Bool × List Char :=
    match cs with
    | '-' :: r => (true, r)
    | '+' :: r => (false, r)
    | r => (false, r)
  match parseNat signed.2 with
  | some (n, rest) =>
    if skipWs rest = [] then some (if signed.1 then -(n : Int) else (n : Int)) else none
  | none => none

/-- `int(read_code)`: the identity on ints, string-to-int conversion on
strings (`ValueError`, i.e. `none`, when the text is not a number). -/
def StatusVal.toIntVal : StatusVal → Option Int
  | .int n => some n
  | .str s => pyIntOfString s

mutual

/-- Parse one JSON value (fuel-bounded recursion; any fuel larger than
twice the input length is enough). -/
def parseVal : Nat → List Char → Option (JsonVal × List Char)
  | 0, _ => none
  | fuel + 1, cs =>
    match skipWs cs with
    | [] => none
    | c :: rest =>
      if c = 'n' then (expectChars ['u', 'l', 'l'] rest).map (fun r => (.null, r))
      else if c = 't' then (expectChars ['r', 'u', 'e'] rest).map (fun r => (.bool true, r))
      else if c = 'f' then (expectChars ['a', 'l', 's', 'e'] rest).map (fun r => (.bool false, r))
      else if c = '"' then (parseStringBody rest).map (fun p => (.str (String.mk p.1), p.2))
      else if c = '[' then
        match skipWs rest with
        | ']' :: r => some (.arr [], r)
        | r => (parseElems fuel r).map (fun p => (.arr p.1, p.2))
      else if c = '{' then
        match skipWs rest with
        | '}' :: r => some (.obj [], r)
        | r => (parseFields fuel r).map (fun p => (.obj p.1, p.2))
      else if c = '-' then (parseNat rest).map (fun p => (.num (-(p.1 : Int)), p.2))
      else if isDigitChar c then (parseNat (c :: rest)).map (fun p => (.num (p.1 : Int), p.2))
      else none

/-- Parse the elements of a nonempty JSON array up to and including the
closing bracket. -/
def parseElems : Nat → List Char → Option (List JsonVal × List Char)
  | 0, _ => none
  | fuel + 1, cs =>
    match parseVal fuel cs with
    | none => none
    | some (v, rest) =>
      match skipWs rest with
      | ',' :: r =>
        match parseElems fuel r with
        | some (vs, r2) => some (v :: vs, r2)
        | none => none
      | ']' :: r => some ([v], r)
      | _ => none

/-- Parse the fields of a nonempty JSON object up to and including the
closing brace. -/
def parseFields : Nat → List Char → Option (List (String × JsonVal) × List Char)
  | 0, _ => none
  | fuel + 1, cs =>
    match skipWs cs with
    | '"' :: rest =>
      match parseStringBody rest with
      | none => none
      | some (kchars, rest2) =>
        match skipWs rest2 with
        | ':' :: r =>
          match parseVal fuel r with
          | none => none
          | some (v, rest3) =>
            match skipWs rest3 with
            | ',' :: r2 =>
              match parseFields fuel r2 with
              | some (fs, r3) => some ((String.mk kchars, v) :: fs, r3)
              | none => none
            | '}' :: r2 => some ([(String.mk kchars, v)], r2)
            | _ => none
        | _ => none
    | _ => none

end

/-- `json.loads`: parse a complete JSON document (trailing whitespace
allowed, anything else after the value is an error). -/
def json_loads (s : String) : Option JsonVal :=
  match parseVal (2 * s.data.length + 2) s.data with
  | some (v, rest) => if skipWs rest = [] then some v else none
  | none => none

/-! ### Zone files, response bodies and `serialize` / `deserialize` -/

/-- Modelled from the spec: `ZoneFile.from_text`
(`designate_tempest_plugin/common/models.py`) is consumed, not implemented,
by the file under verification; per the spec it parses "a line-oriented DNS
zone-file text format" into "a structured zone representation" / "a
structured in-memory value".  The structure keeps the zone's lines as its
records. -/
structure ZoneFile where
  records : List String
deriving DecidableEq, Repr

/-- Modelled from the spec: parse zone text into the structured zone value
(one record per nonempty line). -/
def ZoneFile.from_text (text : String) : ZoneFile :=
  ⟨(text.splitOn "\n").filter (fun l => !l.isEmpty)⟩

/-- A response body as the client hands it back: parsed JSON, a parsed zone
file, or — only on the `_delete_request` 204 path — the raw body text. -/
inductive RespBody where
  | json (v : JsonVal)
  | zone (z : ZoneFile)
  | raw (s : String)

/-- Substring test on character lists: does `needle` occur contiguously? -/
def listContains (needle : List Char) : List Char → Bool
  | [] => needle.isEmpty
  | c :: cs => needle.isPrefixOf (c :: cs) || listContains needle cs

/-- Python's substring test `needle in hay`. -/
def strContains (hay needle : String) : Bool := listContains needle.data hay.data

/-- `DnsClientBase.serialize`: `json.dumps(object_dict)`. -/
def serialize (object_dict : JsonVal) : String := json_dumps object_dict

/-- `DnsClientBase.deserialize`: dispatch on the response's content-type
header — JSON if it contains `"application/json"`, zone file if it contains
`"text/dns"`, otherwise `InvalidContentType` is raised. -/
def deserialize (resp : HttpResponse) (object_str : String) : Except DnsError RespBody :=
  if strContains resp.contentType "application/json" then
    match json_loads object_str with
    | some v => .ok (.json v)
    | none => .error .jsonDecodeError
  else if strContains resp.contentType "text/dns" then
    .ok (.zone (ZoneFile.from_text object_str))
  else
    .error .invalidContentType

/-! ### `expected_success` (the status validator) -/

/-- The inherited `tempest.lib` validator, modelled from its contract as the
spec states it: "fails with a 'wrong HTTP status' error if the actual code
is not in the expected set" (a single expected code is the singleton set). -/
def rest_expected_success (expected_code : List Int) (read_code : Int) : Except DnsError Unit :=
  if read_code ∈ expected_code then .ok ()
  else .error (.invalidHttpSuccessCode expected_code read_code)

/-- `DnsClientBase.expected_success`: warn when `read_code` is not an int,
then delegate to the inherited validator on `int(read_code)`. -/
def expected_success (expected_code : List Int) (read_code : StatusVal) : Res Unit :=
  let logs :=
    if read_code.isInt then []
    else [⟨.warn, "expected_success received not-int read_code"⟩]
  match read_code.toIntVal with
  | some n => ⟨rest_expected_success expected_code n, logs⟩
  | none => ⟨.error .valueError, logs⟩

/-! ### `get_uri` (the URI builder) -/

/-- Uppercase hexadecimal digit for `d < 16`. -/
def upperHexDigit (d : Nat) : Char :=
  if d < 10 then Char.ofNat (48 + d) else Char.ofNat (55 + d)

/-- UTF-8 encoding of one character, as byte values. -/
def utf8Bytes (c : Char) : List Nat :=
  let n := c.toNat
  if n < 128 then [n]
  else if n < 2048 then [192 + n / 64, 128 + n % 64]
  else if n < 65536 then [224 + n / 4096, 128 + (n / 64) % 64, 128 + n % 64]
  else [240 + n / 262144, 128 + (n / 4096) % 64, 128 + (n / 64) % 64, 128 + n % 64]

/-- `urllib.parse.quote_plus` on one byte: space becomes `+`, unreserved
bytes stay, everything else is percent-encoded. -/
def quoteByte (b : Nat) : List Char :=
  if b = 32 then ['+']
  else if (65 ≤ b && b ≤ 90) || (97 ≤ b && b ≤ 122) || (48 ≤ b && b ≤ 57) ||
      b = 95 || b = 46 || b = 45 || b = 126 then [Char.ofNat b]
  else ['%', upperHexDigit (b / 16), upperHexDigit (b % 16)]

/-- `urllib.parse.quote_plus` on a string (over its UTF-8 bytes). -/
def quote_plus (s : String) : String :=
  String.mk (((s.data.map (fun c => (utf8Bytes c).map quoteByte)).flatten).flatten)

/-- `urllib.parse.urlencode`: `key=value` pairs quoted and joined with
`&`. -/
def urlencode (ps : List (String × String)) : String :=
  String.intercalate "&" (ps.map (fun kv => quote_plus kv.1 ++ "=" ++ quote_plus kv.2))

/-- `DnsClientBase.get_uri`: `'{pref}/{res}{uuid}{params}'` where the uuid
segment is `/uuid` when `uuid` is truthy (else empty) and the params
segment is `?urlencode(params)` when `params` is truthy (else empty).
`uri_pref` models the class attribute `uri_prefix`. -/
def get_uri (uri_pref resource_name : String) (uuid : Option String)
    (params : Option (List (String × String))) : String :=
  let uuidSeg :=
    match uuid with
    | some u => if u.isEmpty then "" else "/" ++ u
    | none => ""
  let paramSeg :=
    match params with
    | some ps => if ps.isEmpty then "" else "?" ++ urlencode ps
    | none => ""
  uri_pref ++ "/" ++ resource_name ++ uuidSeg ++ paramSeg

/-! ### The verb helpers

Each helper delegates the HTTP call to the inherited transport
(`self.post` / `self.get` / `self.put` / `self.patch` / `self.delete`),
which is passed in as a function from the request data to either the
`(resp, body)` pair or a raised transport error. -/

/-- Query parameters / headers as the helpers receive them. -/
abbrev Params := Option (List (String × String))

/-- The `(resp, body)` pair or error produced by one transport call. -/
abbrev TransportResult := Except DnsError (HttpResponse × String)

/-- `DnsClientBase._create_request`: serialize the payload, build the
collection URI, POST, check for 201/202, deserialize. -/
def _create_request (post : String → String → Params → Bool → TransportResult)
    (uri_pref resource : String) (object_dict : JsonVal) (params : Params)
    (headers : Params) (extra_headers : Bool) : Res (HttpResponse × RespBody) :=
  let body := serialize object_dict
  let uri := get_uri uri_pref resource none params
  match post uri body headers extra_headers with
  | .error e => ⟨.error e, []⟩
  | .ok (resp, rbody) =>
    let chk := expected_success [201, 202] resp.status
    match chk.result with
    | .error e => ⟨.error e, chk.logs⟩
    | .ok _ =>
      match deserialize resp rbody with
      | .error e => ⟨.error e, chk.logs⟩
      | .ok b => ⟨.ok (resp, b), chk.logs⟩

/-- `DnsClientBase._show_request`: build the item URI, GET, check for 200,
deserialize. -/
def _show_request (get : String → Params → TransportResult)
    (uri_pref resource : String) (uuid : Option String) (headers : Params)
    (params : Params) : Res (HttpResponse × RespBody) :=
  let uri := get_uri uri_pref resource uuid params
  match get uri headers with
  | .error e => ⟨.error e, []⟩
  | .ok (resp, rbody) =>
    let chk := expected_success [200] resp.status
    match chk.result with
    | .error e => ⟨.error e, chk.logs⟩
    | .ok _ =>
      match deserialize resp rbody with
      | .error e => ⟨.error e, chk.logs⟩
      | .ok b => ⟨.ok (resp, b), chk.logs⟩

/-- `DnsClientBase._list_request`: build the collection URI, GET, check for
200, deserialize. -/
def _list_request (get : String → TransportResult)
    (uri_pref resource : String) (params : Params) : Res (HttpResponse × RespBody) :=
  let uri := get_uri uri_pref resource none params
  match get uri with
  | .error e => ⟨.error e, []⟩
  | .ok (resp, rbody) =>
    let chk := expected_success [200] resp.status
    match chk.result with
    | .error e => ⟨.error e, chk.logs⟩
    | .ok _ =>
      match deserialize resp rbody with
      | .error e => ⟨.error e, chk.logs⟩
      | .ok b => ⟨.ok (resp, b), chk.logs⟩

/-- `DnsClientBase._put_request`: serialize the payload, build the item
URI, PUT, check for 200/202, deserialize. -/
def _put_request (put : String → String → TransportResult)
    (uri_pref resource : String) (uuid : Option String) (object_dict : JsonVal)
    (params : Params) : Res (HttpResponse × RespBody) :=
  let body := serialize object_dict
  let uri := get_uri uri_pref resource uuid params
  match put uri body with
  | .error e => ⟨.error e, []⟩
  | .ok (resp, rbody) =>
    let chk := expected_success [200, 202] resp.status
    match chk.result with
    | .error e => ⟨.error e, chk.logs⟩
    | .ok _ =>
      match deserialize resp rbody with
      | .error e => ⟨.error e, chk.logs⟩
      | .ok b => ⟨.ok (resp, b), chk.logs⟩

/-- `DnsClientBase._update_request`: serialize the payload, build the item
URI, PATCH, check for 200/202, deserialize. -/
def _update_request (patch : String → String → TransportResult)
    (uri_pref resource : String) (uuid : Option String) (object_dict : JsonVal)
    (params : Params) : Res (HttpResponse × RespBody) :=
  let body := serialize object_dict
  let uri := get_uri uri_pref resource uuid params
  match patch uri body with
  | .error e => ⟨.error e, []⟩
  | .ok (resp, rbody) =>
    let chk := expected_success [200, 202] resp.status
    match chk.result with
    | .error e => ⟨.error e, chk.logs⟩
    | .ok _ =>
      match deserialize resp rbody with
      | .error e => ⟨.error e, chk.logs⟩
      | .ok b => ⟨.ok (resp, b), chk.logs⟩

/-- `DnsClientBase._delete_request`: build the item URI, DELETE, check for
202/204; the body is deserialized only when `resp.status == 202`, otherwise
it is returned raw. -/
def _delete_request (del : String → TransportResult)
    (uri_pref resource : String) (uuid : Option String) (params : Params) :
    Res (HttpResponse × RespBody) :=
  let uri := get_uri uri_pref resource uuid params
  match del uri with
  | .error e => ⟨.error e, []⟩
  | .ok (resp, rbody) =>
    let chk := expected_success [202, 204] resp.status
    match chk.result with
    | .error e => ⟨.error e, chk.logs⟩
    | .ok _ =>
      if resp.status = .int 202 then
        match deserialize resp rbody with
        | .error e => ⟨.error e, chk.logs⟩
        | .ok b => ⟨.ok (resp, b), chk.logs⟩
      else ⟨.ok (resp, .raw rbody), chk.logs⟩

/-! ### `handle_errors` (selective error suppression) -/

/-- `handle_errors`: run the wrapped operation; an exception whose class is
listed in `ignore_errors` is swallowed with a debug log and the wrapper
returns `None`; any other exception propagates; a normal result is returned
unchanged. -/
def handle_errors (ignore_errors : List ErrorKind) (r : Res α) : Res (Option α) :=
  match r.result with
  | .ok a => ⟨.ok (some a), r.logs⟩
  | .error e =>
    if e.kind ∈ ignore_errors then
      ⟨.ok none, r.logs ++ [⟨.debug, "Ignoring exception of type, as requested"⟩]⟩
    else ⟨.error e, r.logs⟩

/-- `_create_request` as a caller invokes it through the `handle_errors`
decoration, with the `ignore_errors` keyword argument. -/
def create_request (post : String → String → Params → Bool → TransportResult)
    (uri_pref resource : String) (object_dict : JsonVal) (params : Params)
    (headers : Params) (extra_headers : Bool) (ignore_errors : List ErrorKind) :
    Res (Option (HttpResponse × RespBody)) :=
  handle_errors ignore_errors
    (_create_request post uri_pref resource object_dict params headers extra_headers)

/-- Does the input *not* begin with a decimal digit?  (Condition under
which a parsed number cannot be extended by the following text.) -/
def headNotDigit : List Char → Bool
  | [] => true
  | c :: _ => !isDigitChar c

/-- The class of the exception a client operation raised, if it raised. -/
def Res.errorKind (r : Res α) : Option ErrorKind :=
  match r.result with
  | .error e => some e.kind
  | .ok _ => none

/-! ## Theorems -/

/-- C1: `deserialize` dispatches on the content-type header: if it contains
"application/json" the body is parsed as JSON; otherwise, if it contains
"text/dns", the body is parsed into a structured zone-file value (never a
raw string); any other content type raises the unsupported-content-type
error. -/
theorem c1_deserialize_dispatch (resp : HttpResponse) (s : String) :
    (strContains resp.contentType "application/json" = true →
      deserialize resp s =
        match json_loads s with
        | some v => .ok (.json v)
        | none => .error .jsonDecodeError) ∧
    (strContains resp.contentType "application/json" = false →
      strContains resp.contentType "text/dns" = true →
      deserialize resp s = .ok (.zone (ZoneFile.from_text s))) ∧
    (strContains resp.contentType "application/json" = false →
      strContains resp.contentType "text/dns" = false →
      deserialize resp s = .error .invalidContentType) ∧
    (∀ raw, deserialize resp s ≠ .ok (.raw raw)) := by
  refine ⟨fun h1 => ?_, fun h1 h2 => ?_, fun h1 h2 => ?_, fun raw => ?_⟩
  · simp only [deserialize, h1, if_true]
  · simp only [deserialize, h1, h2, if_true, Bool.false_eq_true, if_false]
  · simp only [deserialize, h1, h2, Bool.false_eq_true, if_false]
  · unfold deserialize
    split
    · cases json_loads s <;> simp
    · split <;> simp

/-- C1 witness: a "text/plain" response fails with the
unsupported-content-type error. -/
theorem c1_deserialize_dispatch_witness :
    strContains "text/plain" "application/json" = false ∧
    strContains "text/plain" "text/dns" = false ∧
    deserialize ⟨.int 200, "text/plain"⟩ "hello" = .error .invalidContentType :=
  ⟨rfl, rfl, (c1_deserialize_dispatch ⟨.int 200, "text/plain"⟩ "hello").2.2.1 rfl rfl⟩

/-- C4: `handle_errors` returns the wrapped operation's result unchanged
when it does not raise; catches, logs at debug level and returns no value
when it raises an error of an ignored kind; and propagates the error
unchanged when its kind is not ignored (in particular when no kinds were
supplied). -/
theorem c4_handle_errors {α : Type} (ignored : List ErrorKind) (r : Res α) :
    (∀ a, r.result = .ok a → handle_errors ignored r = ⟨.ok (some a), r.logs⟩) ∧
    (∀ e, r.result = .error e → e.kind ∈ ignored →
      handle_errors ignored r =
        ⟨.ok none, r.logs ++ [⟨.debug, "Ignoring exception of type, as requested"⟩]⟩) ∧
    (∀ e, r.result = .error e → e.kind ∉ ignored →
      handle_errors ignored r = ⟨.error e, r.logs⟩) := by
  refine ⟨fun a ha => ?_, fun e he hk => ?_, fun e he hk => ?_⟩
  · simp only [handle_errors, ha]
  · simp only [handle_errors, he, hk, if_true]
  · simp only [handle_errors, he, hk, if_false]

/-- C4 witness: an `InvalidContentType` raised under
`ignore_errors=(InvalidContentType,)` is swallowed with a debug log. -/
theorem c4_handle_errors_witness :
    handle_errors [.invalidContentType]
        (⟨.error .invalidContentType, []⟩ : Res Unit) =
      ⟨.ok none, [⟨.debug, "Ignoring exception of type, as requested"⟩]⟩ :=
  (c4_handle_errors [.invalidContentType] ⟨.error .invalidContentType, []⟩).2.1
    .invalidContentType rfl (by decide)

/-- C5: `get_uri` yields `pref/resource`, `pref/resource/uuid`,
`pref/resource?params` or `pref/resource/uuid?params` according to which of
the optional uuid and query parameters are present, with no trailing slash
and no empty query string. -/
theorem c5_get_uri (pref res u : String) (ps : List (String × String))
    (hu : u ≠ "") (hps : ps ≠ []) :
    get_uri pref res none none = pref ++ "/" ++ res ∧
    get_uri pref res (some u) none = pref ++ "/" ++ res ++ "/" ++ u ∧
    get_uri pref res none (some ps) = pref ++ "/" ++ res ++ "?" ++ urlencode ps ∧
    get_uri pref res (some u) (some ps) =
      pref ++ "/" ++ res ++ "/" ++ u ++ "?" ++ urlencode ps := by
  have hu' : u.isEmpty = false := by
    cases h : u.isEmpty
    · rfl
    · exact absurd ((String.isEmpty_iff u).mp h) hu
  have hps' : ps.isEmpty = false := by
    cases ps
    · exact absurd rfl hps
    · rfl
  refine ⟨?_, ?_, ?_, ?_⟩ <;>
    simp [get_uri, hu', hps', String.append_assoc]

/-- C5 witness: all four shapes at concrete inputs. -/
theorem c5_get_uri_witness :
    get_uri "v2" "zones" none none = "v2/zones" ∧
    get_uri "v2" "zones" (some "z1") none = "v2/zones/z1" ∧
    get_uri "v2" "zones" none (some [("limit", "10")]) = "v2/zones?limit=10" ∧
    get_uri "v2" "zones" (some "z1") (some [("limit", "10")]) = "v2/zones/z1?limit=10" := by
  obtain ⟨h1, h2, h3, h4⟩ :=
    c5_get_uri "v2" "zones" "z1" [("limit", "10")] (by decide) (by decide)
  exact ⟨h1, h2, by rw [h3]; rfl, by rw [h4]; rfl⟩

/-- C10: `get_uri` treats falsy optional arguments as absent: an empty-string
uuid and an empty params mapping each omit their URI segment entirely,
exactly as when the argument is not supplied. -/
theorem c10_get_uri_falsy (pref res : String) :
    get_uri pref res (some "") (some []) = pref ++ "/" ++ res ∧
    get_uri pref res (some "") none = pref ++ "/" ++ res ∧
    get_uri pref res none (some []) = pref ++ "/" ++ res ∧
    get_uri pref res (some "") (some []) = get_uri pref res none none := by
  refine ⟨?_, ?_, ?_, ?_⟩ <;> simp [get_uri, String.isEmpty_iff]

/-- C8: `expected_success` logs a warning exactly when the received status
value is not already an integer, and in all cases delegates to the
inherited validator applied to the integer value of the status; the warning
never changes the outcome. -/
theorem c8_expected_success (expected : List Int) (sv : StatusVal) (n : Int)
    (h : sv.toIntVal = some n) :
    (expected_success expected sv).result = rest_expected_success expected n ∧
    ((expected_success expected sv).logs =
      if sv.isInt then []
      else [⟨.warn, "expected_success received not-int read_code"⟩]) := by
  constructor <;> simp only [expected_success, h]

/-- C8 witness: the numeric string "404" warns and is rejected exactly as
the integer 404 would be against expected set {200}. -/
theorem c8_expected_success_witness :
    (expected_success [200] (.str "404")).result =
        .error (.invalidHttpSuccessCode [200] 404) ∧
    (expected_success [200] (.str "404")).logs =
        [⟨.warn, "expected_success received not-int read_code"⟩] := by
  obtain ⟨h1, h2⟩ := c8_expected_success [200] (.str "404") 404 (by rfl)
  refine ⟨?_, ?_⟩
  · rw [h1]; rfl
  · rw [h2]; rfl

/-- C6: `_delete_request` with an accepted status deserializes the body
when the status is 202, and returns the raw body unmodified (without
invoking the deserializer, hence without any content-type check) when the
status is 204. -/
theorem c6_delete_request
    (del : String → TransportResult) (uri_pref resource : String)
    (uuid : Option String) (params : Params) (resp : HttpResponse) (rbody : String)
    (hdel : del (get_uri uri_pref resource uuid params) = .ok (resp, rbody)) :
    (resp.status = .int 202 →
      _delete_request del uri_pref resource uuid params =
        match deserialize resp rbody with
        | .error e => ⟨.error e, []⟩
        | .ok b => ⟨.ok (resp, b), []⟩) ∧
    (resp.status = .int 204 →
      _delete_request del uri_pref resource uuid params = ⟨.ok (resp, .raw rbody), []⟩) := by
  constructor <;> intro hst <;>
    simp only [_delete_request, hdel, hst, expected_success, StatusVal.toIntVal,
      StatusVal.isInt, rest_expected_success] <;>
    norm_num

/-- `deserialize` can only raise the JSON-decode or unsupported-content-type
errors, never the wrong-HTTP-status error. -/
theorem deserialize_error_cases (resp : HttpResponse) (s : String) (e : DnsError)
    (h : deserialize resp s = .error e) :
    e = .jsonDecodeError ∨ e = .invalidContentType := by
  unfold deserialize at h
  split at h
  · cases hj : json_loads s <;> rw [hj] at h
    · cases h; exact Or.inl rfl
    · cases h
  · split at h
    · cases h
    · cases h; exact Or.inr rfl

/-- `_create_request` after a successful transport call with integer status
`n`: the 201/202 check decides between deserializing and the
wrong-HTTP-status error. -/
theorem create_request_status
    (post : String → String → Params → Bool → TransportResult)
    (uri_pref resource : String) (object_dict : JsonVal) (params headers : Params)
    (extra_headers : Bool) (resp : HttpResponse) (rbody : String) (n : Int)
    (hpost : post (get_uri uri_pref resource none params) (serialize object_dict)
        headers extra_headers = .ok (resp, rbody))
    (hst : resp.status = .int n) :
    _create_request post uri_pref resource object_dict params headers extra_headers =
      if n ∈ ([201, 202] : List Int) then
        match deserialize resp rbody with
        | .error e => ⟨.error e, []⟩
        | .ok b => ⟨.ok (resp, b), []⟩
      else ⟨.error (.invalidHttpSuccessCode [201, 202] n), []⟩ := by
  simp only [_create_request, hpost, hst, expected_success, StatusVal.toIntVal,
    StatusVal.isInt, rest_expected_success]
  by_cases hn : n ∈ ([201, 202] : List Int) <;> simp [hn]

/-- `_show_request` after a successful transport call with integer status
`n`: the 200 check decides between deserializing and the wrong-HTTP-status
error. -/
theorem show_request_status
    (get : String → Params → TransportResult) (uri_pref resource : String)
    (uuid : Option String) (headers params : Params)
    (resp : HttpResponse) (rbody : String) (n : Int)
    (hget : get (get_uri uri_pref resource uuid params) headers = .ok (resp, rbody))
    (hst : resp.status = .int n) :
    _show_request get uri_pref resource uuid headers params =
      if n ∈ ([200] : List Int) then
        match deserialize resp rbody with
        | .error e => ⟨.error e, []⟩
        | .ok b => ⟨.ok (resp, b), []⟩
      else ⟨.error (.invalidHttpSuccessCode [200] n), []⟩ := by
  simp only [_show_request, hget, hst, expected_success, StatusVal.toIntVal,
    StatusVal.isInt, rest_expected_success]
  by_cases hn : n ∈ ([200] : List Int)
  · have h200 : n = 200 := by simpa using hn
    simp [hn, h200]
  · have h200 : ¬ n = 200 := by simpa using hn
    simp [hn, h200]

/-- `_list_request` after a successful transport call with integer status
`n`. -/
theorem list_request_status
    (get : String → TransportResult) (uri_pref resource : String) (params : Params)
    (resp : HttpResponse) (rbody : String) (n : Int)
    (hget : get (get_uri uri_pref resource none params) = .ok (resp, rbody))
    (hst : resp.status = .int n) :
    _list_request get uri_pref resource params =
      if n ∈ ([200] : List Int) then
        match deserialize resp rbody with
        | .error e => ⟨.error e, []⟩
        | .ok b => ⟨.ok (resp, b), []⟩
      else ⟨.error (.invalidHttpSuccessCode [200] n), []⟩ := by
  simp only [_list_request, hget, hst, expected_success, StatusVal.toIntVal,
    StatusVal.isInt, rest_expected_success]
  by_cases hn : n ∈ ([200] : List Int)
  · have h200 : n = 200 := by simpa using hn
    simp [hn, h200]
  · have h200 : ¬ n = 200 := by simpa using hn
    simp [hn, h200]

/-- `_put_request` after a successful transport call with integer status
`n`. -/
theorem put_request_status
    (put : String → String → TransportResult) (uri_pref resource : String)
    (uuid : Option String) (object_dict : JsonVal) (params : Params)
    (resp : HttpResponse) (rbody : String) (n : Int)
    (hput : put (get_uri uri_pref resource uuid params) (serialize object_dict)
        = .ok (resp, rbody))
    (hst : resp.status = .int n) :
    _put_request put uri_pref resource uuid object_dict params =
      if n ∈ ([200, 202] : List Int) then
        match deserialize resp rbody with
        | .error e => ⟨.error e, []⟩
        | .ok b => ⟨.ok (resp, b), []⟩
      else ⟨.error (.invalidHttpSuccessCode [200, 202] n), []⟩ := by
  simp only [_put_request, hput, hst, expected_success, StatusVal.toIntVal,
    StatusVal.isInt, rest_expected_success]
  by_cases hn : n ∈ ([200, 202] : List Int) <;> simp [hn]

/-- `_update_request` after a successful transport call with integer status
`n`. -/
theorem update_request_status
    (patch : String → String → TransportResult) (uri_pref resource : String)
    (uuid : Option String) (object_dict : JsonVal) (params : Params)
    (resp : HttpResponse) (rbody : String) (n : Int)
    (hpatch : patch (get_uri uri_pref resource uuid params) (serialize object_dict)
        = .ok (resp, rbody))
    (hst : resp.status = .int n) :
    _update_request patch uri_pref resource uuid object_dict params =
      if n ∈ ([200, 202] : List Int) then
        match deserialize resp rbody with
        | .error e => ⟨.error e, []⟩
        | .ok b => ⟨.ok (resp, b), []⟩
      else ⟨.error (.invalidHttpSuccessCode [200, 202] n), []⟩ := by
  simp only [_update_request, hpatch, hst, expected_success, StatusVal.toIntVal,
    StatusVal.isInt, rest_expected_success]
  by_cases hn : n ∈ ([200, 202] : List Int) <;> simp [hn]

/-- `_delete_request` after a successful transport call with integer status
`n`: the 202/204 check decides between the 202-deserialize /
204-raw-body alternative and the wrong-HTTP-status error. -/
theorem delete_request_status
    (del : String → TransportResult) (uri_pref resource : String)
    (uuid : Option String) (params : Params)
    (resp : HttpResponse) (rbody : String) (n : Int)
    (hdel : del (get_uri uri_pref resource uuid params) = .ok (resp, rbody))
    (hst : resp.status = .int n) :
    _delete_request del uri_pref resource uuid params =
      if n ∈ ([202, 204] : List Int) then
        if n = 202 then
          match deserialize resp rbody with
          | .error e => ⟨.error e, []⟩
          | .ok b => ⟨.ok (resp, b), []⟩
        else ⟨.ok (resp, .raw rbody), []⟩
      else ⟨.error (.invalidHttpSuccessCode [202, 204] n), []⟩ := by
  simp only [_delete_request, hdel, hst, expected_success, StatusVal.toIntVal,
    StatusVal.isInt, rest_expected_success]
  by_cases hn : n ∈ ([202, 204] : List Int) <;> by_cases h202 : n = 202 <;>
    simp [hn, h202]

/-- The wrong-HTTP-status error comes out of the post-validation tail of a
verb helper exactly when the status is outside the expected set. -/
theorem errorKind_status_tail (E : List Int) (n : Int) (resp : HttpResponse) (rbody : String) :
    Res.errorKind
      (if n ∈ E then
        match deserialize resp rbody with
        | .error e => (⟨.error e, []⟩ : Res (HttpResponse × RespBody))
        | .ok b => ⟨.ok (resp, b), []⟩
       else ⟨.error (.invalidHttpSuccessCode E n), []⟩) = some .invalidHttpSuccessCode
      ↔ n ∉ E := by
  by_cases hn : n ∈ E
  · simp only [hn, if_true, not_true, iff_false]
    intro hk
    rcases hd : deserialize resp rbody with e | b <;> rw [hd] at hk
    · simp only [Res.errorKind, Option.some.injEq] at hk
      rcases deserialize_error_cases resp rbody e hd with rfl | rfl <;>
        simp [DnsError.kind] at hk
    · simp [Res.errorKind] at hk
  · simp [hn, Res.errorKind, DnsError.kind]

/-- Same as `errorKind_status_tail` for the delete tail with its 202/204
branch. -/
theorem errorKind_status_tail_delete (E : List Int) (n : Int) (resp : HttpResponse)
    (rbody : String) :
    Res.errorKind
      (if n ∈ E then
        if n = 202 then
          match deserialize resp rbody with
          | .error e => (⟨.error e, []⟩ : Res (HttpResponse × RespBody))
          | .ok b => ⟨.ok (resp, b), []⟩
        else ⟨.ok (resp, .raw rbody), []⟩
       else ⟨.error (.invalidHttpSuccessCode E n), []⟩) = some .invalidHttpSuccessCode
      ↔ n ∉ E := by
  by_cases hn : n ∈ E
  · simp only [hn, if_true, not_true, iff_false]
    intro hk
    by_cases h202 : n = 202
    · rw [if_pos h202] at hk
      rcases hd : deserialize resp rbody with e | b <;> rw [hd] at hk
      · simp only [Res.errorKind, Option.some.injEq] at hk
        rcases deserialize_error_cases resp rbody e hd with rfl | rfl <;>
          simp [DnsError.kind] at hk
      · simp [Res.errorKind] at hk
    · rw [if_neg h202] at hk
      simp [Res.errorKind] at hk
  · simp [hn, Res.errorKind, DnsError.kind]

/-- C2: each verb helper raises the status-validator's wrong-HTTP-status
error if and only if the received status is outside its expected set:
Create {201,202}; Show {200}; List {200}; Replace {200,202};
Update {200,202}; Delete {202,204}. -/
theorem c2_expected_status_sets :
    (∀ (post : String → String → Params → Bool → TransportResult)
        (uri_pref resource : String) (object_dict : JsonVal) (params headers : Params)
        (extra_headers : Bool) (resp : HttpResponse) (rbody : String) (n : Int),
      post (get_uri uri_pref resource none params) (serialize object_dict)
          headers extra_headers = .ok (resp, rbody) →
      resp.status = .int n →
      (Res.errorKind (_create_request post uri_pref resource object_dict params headers
          extra_headers) = some .invalidHttpSuccessCode ↔ n ∉ ([201, 202] : List Int))) ∧
    (∀ (get : String → Params → TransportResult) (uri_pref resource : String)
        (uuid : Option String) (headers params : Params)
        (resp : HttpResponse) (rbody : String) (n : Int),
      get (get_uri uri_pref resource uuid params) headers = .ok (resp, rbody) →
      resp.status = .int n →
      (Res.errorKind (_show_request get uri_pref resource uuid headers params)
          = some .invalidHttpSuccessCode ↔ n ∉ ([200] : List Int))) ∧
    (∀ (get : String → TransportResult) (uri_pref resource : String) (params : Params)
        (resp : HttpResponse) (rbody : String) (n : Int),
      get (get_uri uri_pref resource none params) = .ok (resp, rbody) →
      resp.status = .int n →
      (Res.errorKind (_list_request get uri_pref resource params)
          = some .invalidHttpSuccessCode ↔ n ∉ ([200] : List Int))) ∧
    (∀ (put : String → String → TransportResult) (uri_pref resource : String)
        (uuid : Option String) (object_dict : JsonVal) (params : Params)
        (resp : HttpResponse) (rbody : String) (n : Int),
      put (get_uri uri_pref resource uuid params) (serialize object_dict)
          = .ok (resp, rbody) →
      resp.status = .int n →
      (Res.errorKind (_put_request put uri_pref resource uuid object_dict params)
          = some .invalidHttpSuccessCode ↔ n ∉ ([200, 202] : List Int))) ∧
    (∀ (patch : String → String → TransportResult) (uri_pref resource : String)
        (uuid : Option String) (object_dict : JsonVal) (params : Params)
        (resp : HttpResponse) (rbody : String) (n : Int),
      patch (get_uri uri_pref resource uuid params) (serialize object_dict)
          = .ok (resp, rbody) →
      resp.status = .int n →
      (Res.errorKind (_update_request patch uri_pref resource uuid object_dict params)
          = some .invalidHttpSuccessCode ↔ n ∉ ([200, 202] : List Int))) ∧
    (∀ (del : String → TransportResult) (uri_pref resource : String)
        (uuid : Option String) (params : Params)
        (resp : HttpResponse) (rbody : String) (n : Int),
      del (get_uri uri_pref resource uuid params) = .ok (resp, rbody) →
      resp.status = .int n →
      (Res.errorKind (_delete_request del uri_pref resource uuid params)
          = some .invalidHttpSuccessCode ↔ n ∉ ([202, 204] : List Int))) := by
  refine ⟨?_, ?_, ?_, ?_, ?_, ?_⟩
  · intro post uri_pref resource object_dict params headers extra_headers resp rbody n h1 h2
    rw [create_request_status post uri_pref resource object_dict params headers
      extra_headers resp rbody n h1 h2]
    exact errorKind_status_tail [201, 202] n resp rbody
  · intro get uri_pref resource uuid headers params resp rbody n h1 h2
    rw [show_request_status get uri_pref resource uuid headers params resp rbody n h1 h2]
    exact errorKind_status_tail [200] n resp rbody
  · intro get uri_pref resource params resp rbody n h1 h2
    rw [list_request_status get uri_pref resource params resp rbody n h1 h2]
    exact errorKind_status_tail [200] n resp rbody
  · intro put uri_pref resource uuid object_dict params resp rbody n h1 h2
    rw [put_request_status put uri_pref resource uuid object_dict params resp rbody n h1 h2]
    exact errorKind_status_tail [200, 202] n resp rbody
  · intro patch uri_pref resource uuid object_dict params resp rbody n h1 h2
    rw [update_request_status patch uri_pref resource uuid object_dict params resp rbody n h1 h2]
    exact errorKind_status_tail [200, 202] n resp rbody
  · intro del uri_pref resource uuid params resp rbody n h1 h2
    rw [delete_request_status del uri_pref resource uuid params resp rbody n h1 h2]
    exact errorKind_status_tail_delete [202, 204] n resp rbody

/-- C2 witness: Create accepts 202 and rejects 400; Show rejects 202. -/
theorem c2_expected_status_sets_witness :
    (Res.errorKind (_create_request
        (fun _ _ _ _ => .ok (⟨.int 400, "application/json"⟩, "\x7b\x7d"))
        "v2" "zones" .null none none false) = some .invalidHttpSuccessCode ↔
      (400 : Int) ∉ ([201, 202] : List Int)) ∧
    (Res.errorKind (_create_request
        (fun _ _ _ _ => .ok (⟨.int 202, "application/json"⟩, "\x7b\x7d"))
        "v2" "zones" .null none none false) = some .invalidHttpSuccessCode ↔
      (202 : Int) ∉ ([201, 202] : List Int)) ∧
    (Res.errorKind (_show_request
        (fun _ _ => .ok (⟨.int 202, "application/json"⟩, "\x7b\x7d"))
        "v2" "zones" (some "z1") none none) = some .invalidHttpSuccessCode ↔
      (202 : Int) ∉ ([200] : List Int)) :=
  ⟨c2_expected_status_sets.1 (fun _ _ _ _ => .ok (⟨.int 400, "application/json"⟩, "\x7b\x7d"))
      "v2" "zones" .null none none false ⟨.int 400, "application/json"⟩ "\x7b\x7d" 400 rfl rfl,
    c2_expected_status_sets.1 (fun _ _ _ _ => .ok (⟨.int 202, "application/json"⟩, "\x7b\x7d"))
      "v2" "zones" .null none none false ⟨.int 202, "application/json"⟩ "\x7b\x7d" 202 rfl rfl,
    (c2_expected_status_sets.2.1 (fun _ _ => .ok (⟨.int 202, "application/json"⟩, "\x7b\x7d"))
      "v2" "zones" (some "z1") none none ⟨.int 202, "application/json"⟩ "\x7b\x7d" 202 rfl rfl)⟩

/-- C9: status validation happens strictly before deserialization: whenever
the received status is outside the helper's expected set, the helper fails
with the wrong-HTTP-status error whatever the body and content type are
(in particular the deserializer's content-type check never happens). -/
theorem c9_validation_before_deserialization :
    (∀ (post : String → String → Params → Bool → TransportResult)
        (uri_pref resource : String) (object_dict : JsonVal) (params headers : Params)
        (extra_headers : Bool) (resp : HttpResponse) (rbody : String) (n : Int),
      post (get_uri uri_pref resource none params) (serialize object_dict)
          headers extra_headers = .ok (resp, rbody) →
      resp.status = .int n → n ∉ ([201, 202] : List Int) →
      _create_request post uri_pref resource object_dict params headers extra_headers
        = ⟨.error (.invalidHttpSuccessCode [201, 202] n), []⟩) ∧
    (∀ (get : String → Params → TransportResult) (uri_pref resource : String)
        (uuid : Option String) (headers params : Params)
        (resp : HttpResponse) (rbody : String) (n : Int),
      get (get_uri uri_pref resource uuid params) headers = .ok (resp, rbody) →
      resp.status = .int n → n ∉ ([200] : List Int) →
      _show_request get uri_pref resource uuid headers params
        = ⟨.error (.invalidHttpSuccessCode [200] n), []⟩) ∧
    (∀ (get : String → TransportResult) (uri_pref resource : String) (params : Params)
        (resp : HttpResponse) (rbody : String) (n : Int),
      get (get_uri uri_pref resource none params) = .ok (resp, rbody) →
      resp.status = .int n → n ∉ ([200] : List Int) →
      _list_request get uri_pref resource params
        = ⟨.error (.invalidHttpSuccessCode [200] n), []⟩) ∧
    (∀ (put : String → String → TransportResult) (uri_pref resource : String)
        (uuid : Option String) (object_dict : JsonVal) (params : Params)
        (resp : HttpResponse) (rbody : String) (n : Int),
      put (get_uri uri_pref resource uuid params) (serialize object_dict)
          = .ok (resp, rbody) →
      resp.status = .int n → n ∉ ([200, 202] : List Int) →
      _put_request put uri_pref resource uuid object_dict params
        = ⟨.error (.invalidHttpSuccessCode [200, 202] n), []⟩) ∧
    (∀ (patch : String → String → TransportResult) (uri_pref resource : String)
        (uuid : Option String) (object_dict : JsonVal) (params : Params)
        (resp : HttpResponse) (rbody : String) (n : Int),
      patch (get_uri uri_pref resource uuid params) (serialize object_dict)
          = .ok (resp, rbody) →
      resp.status = .int n → n ∉ ([200, 202] : List Int) →
      _update_request patch uri_pref resource uuid object_dict params
        = ⟨.error (.invalidHttpSuccessCode [200, 202] n), []⟩) ∧
    (∀ (del : String → TransportResult) (uri_pref resource : String)
        (uuid : Option String) (params : Params)
        (resp : HttpResponse) (rbody : String) (n : Int),
      del (get_uri uri_pref resource uuid params) = .ok (resp, rbody) →
      resp.status = .int n → n ∉ ([202, 204] : List Int) →
      _delete_request del uri_pref resource uuid params
        = ⟨.error (.invalidHttpSuccessCode [202, 204] n), []⟩) := by
  refine ⟨?_, ?_, ?_, ?_, ?_, ?_⟩
  · intro post uri_pref resource object_dict params headers extra_headers resp rbody n h1 h2 hn
    rw [create_request_status post uri_pref resource object_dict params headers
      extra_headers resp rbody n h1 h2, if_neg hn]
  · intro get uri_pref resource uuid headers params resp rbody n h1 h2 hn
    rw [show_request_status get uri_pref resource uuid headers params resp rbody n h1 h2,
      if_neg hn]
  · intro get uri_pref resource params resp rbody n h1 h2 hn
    rw [list_request_status get uri_pref resource params resp rbody n h1 h2, if_neg hn]
  · intro put uri_pref resource uuid object_dict params resp rbody n h1 h2 hn
    rw [put_request_status put uri_pref resource uuid object_dict params resp rbody n h1 h2,
      if_neg hn]
  · intro patch uri_pref resource uuid object_dict params resp rbody n h1 h2 hn
    rw [update_request_status patch uri_pref resource uuid object_dict params resp rbody n
      h1 h2, if_neg hn]
  · intro del uri_pref resource uuid params resp rbody n h1 h2 hn
    rw [delete_request_status del uri_pref resource uuid params resp rbody n h1 h2, if_neg hn]

/-- C9 witness: a 404 response whose content type is also unsupported fails
with the wrong-HTTP-status error, not the content-type error. -/
theorem c9_validation_before_deserialization_witness :
    _show_request (fun _ _ => .ok (⟨.int 404, "text/plain"⟩, "oops"))
        "v2" "zones" (some "z1") none none
      = ⟨.error (.invalidHttpSuccessCode [200] 404), []⟩ :=
  c9_validation_before_deserialization.2.1
    (fun _ _ => .ok (⟨.int 404, "text/plain"⟩, "oops"))
    "v2" "zones" (some "z1") none none ⟨.int 404, "text/plain"⟩ "oops" 404 rfl rfl
    (by decide)

/-- C3: Create through the `handle_errors` decoration: a simulated 201
response returns without error; a 404 raises the wrong-HTTP-status error;
a 404 with `ignore_errors` containing that error kind returns no value and
logs a debug message instead of raising. -/
theorem c3_create_request_handle_errors
    (post : String → String → Params → Bool → TransportResult)
    (uri_pref resource : String) (object_dict : JsonVal) (params headers : Params)
    (extra_headers : Bool) (resp : HttpResponse) (rbody : String)
    (hpost : post (get_uri uri_pref resource none params) (serialize object_dict)
        headers extra_headers = .ok (resp, rbody)) :
    (resp.status = .int 201 → ∀ b, deserialize resp rbody = .ok b →
      create_request post uri_pref resource object_dict params headers extra_headers []
        = ⟨.ok (some (resp, b)), []⟩) ∧
    (resp.status = .int 404 →
      (create_request post uri_pref resource object_dict params headers extra_headers
          []).result = .error (.invalidHttpSuccessCode [201, 202] 404)) ∧
    (∀ ignored : List ErrorKind, resp.status = .int 404 →
      .invalidHttpSuccessCode ∈ ignored →
      create_request post uri_pref resource object_dict params headers extra_headers ignored
        = ⟨.ok none, [⟨.debug, "Ignoring exception of type, as requested"⟩]⟩) := by
  refine ⟨fun hst b hb => ?_, fun hst => ?_, fun ignored hst hin => ?_⟩
  · unfold create_request
    rw [create_request_status post uri_pref resource object_dict params headers
      extra_headers resp rbody 201 hpost hst, if_pos (by decide), hb]
    rfl
  · unfold create_request
    rw [create_request_status post uri_pref resource object_dict params headers
      extra_headers resp rbody 404 hpost hst, if_neg (by decide)]
    rfl
  · unfold create_request
    rw [create_request_status post uri_pref resource object_dict params headers
      extra_headers resp rbody 404 hpost hst, if_neg (by decide)]
    simp [handle_errors, DnsError.kind, hin]

/-- C3 witness: the three behaviours at a concrete simulated transport. -/
theorem c3_create_request_handle_errors_witness :
    create_request (fun _ _ _ _ => .ok (⟨.int 201, "application/json"⟩, "\x7b\x7d"))
        "v2" "zones" .null none none false []
      = ⟨.ok (some (⟨.int 201, "application/json"⟩, .json (.obj []))), []⟩ ∧
    (create_request (fun _ _ _ _ => .ok (⟨.int 404, "application/json"⟩, "\x7b\x7d"))
        "v2" "zones" .null none none false []).result
      = .error (.invalidHttpSuccessCode [201, 202] 404) ∧
    create_request (fun _ _ _ _ => .ok (⟨.int 404, "application/json"⟩, "\x7b\x7d"))
        "v2" "zones" .null none none false [.invalidHttpSuccessCode]
      = ⟨.ok none, [⟨.debug, "Ignoring exception of type, as requested"⟩]⟩ :=
  ⟨(c3_create_request_handle_errors (fun _ _ _ _ => .ok (⟨.int 201, "application/json"⟩, "\x7b\x7d"))
      "v2" "zones" .null none none false ⟨.int 201, "application/json"⟩ "\x7b\x7d" rfl).1
      rfl (.json (.obj [])) rfl,
    (c3_create_request_handle_errors (fun _ _ _ _ => .ok (⟨.int 404, "application/json"⟩, "\x7b\x7d"))
      "v2" "zones" .null none none false ⟨.int 404, "application/json"⟩ "\x7b\x7d" rfl).2.1 rfl,
    (c3_create_request_handle_errors (fun _ _ _ _ => .ok (⟨.int 404, "application/json"⟩, "\x7b\x7d"))
      "v2" "zones" .null none none false ⟨.int 404, "application/json"⟩ "\x7b\x7d" rfl).2.2
      [.invalidHttpSuccessCode] rfl (by decide)⟩

/-- C6 witness: status 204 hands back the raw body even for an unsupported
content type; status 202 with JSON content hands back the parsed body. -/
theorem c6_delete_request_witness :
    _delete_request (fun _ => .ok (⟨.int 204, "text/plain"⟩, "gone"))
        "v2" "zones" (some "z1") none =
      ⟨.ok (⟨.int 204, "text/plain"⟩, .raw "gone"), []⟩ :=
  (c6_delete_request (fun _ => .ok (⟨.int 204, "text/plain"⟩, "gone"))
      "v2" "zones" (some "z1") none ⟨.int 204, "text/plain"⟩ "gone" rfl).2 rfl

/-! ### Correctness of the decimal rendering against the digit parser -/

/-- Rendered digits are digit characters. -/
theorem isDigitChar_digitChar (d : Nat) (h : d < 10) : isDigitChar (digitChar d) = true := by
  interval_cases d <;> decide

/-- Parsing a rendered digit character recovers the digit. -/
theorem digitVal_digitChar (d : Nat) (h : d < 10) : digitVal (digitChar d) = d := by
  interval_cases d <;> decide

/-- Every character of `natDigitsAux` is a decimal digit. -/
theorem natDigitsAux_all_digits :
    ∀ fuel n c, c ∈ natDigitsAux fuel n → isDigitChar c = true := by
  intro fuel
  induction fuel with
  | zero => intro n c hc; simp [natDigitsAux] at hc
  | succ f ih =>
    intro n c hc
    by_cases hn : n = 0
    · simp [natDigitsAux, hn] at hc
    · simp only [natDigitsAux, if_neg hn] at hc
      rcases List.mem_append.mp hc with h | h
      · exact ih _ _ h
      · rw [List.mem_singleton] at h
        subst h
        exact isDigitChar_digitChar _ (Nat.mod_lt _ (by omega))

/-- Every character of `renderNat` is a decimal digit. -/
theorem renderNat_all_digits (n : Nat) : ∀ c ∈ renderNat n, isDigitChar c = true := by
  intro c hc
  unfold renderNat at hc
  by_cases hn : n = 0
  · rw [if_pos hn, List.mem_singleton] at hc
    subst hc; decide
  · rw [if_neg hn] at hc
    exact natDigitsAux_all_digits n n c hc

/-- `natDigitsAux` of a positive number is nonempty. -/
theorem natDigitsAux_ne_nil (fuel n : Nat) (h1 : n ≠ 0) (h2 : n ≤ fuel) :
    natDigitsAux fuel n ≠ [] := by
  cases fuel with
  | zero => omega
  | succ f =>
    simp only [natDigitsAux, if_neg h1]
    simp

/-- `renderNat` is never empty. -/
theorem renderNat_ne_nil (n : Nat) : renderNat n ≠ [] := by
  unfold renderNat
  by_cases hn : n = 0
  · rw [if_pos hn]; simp
  · rw [if_neg hn]; exact natDigitsAux_ne_nil n n hn le_rfl

/-- Defining equation of `foldDigits` on the empty list. -/
theorem foldDigits_nil (acc : Nat) : foldDigits acc [] = acc := rfl

/-- Defining equation of `foldDigits` on a cons cell. -/
theorem foldDigits_cons (acc : Nat) (c : Char) (cs : List Char) :
    foldDigits acc (c :: cs) = foldDigits (acc * 10 + digitVal c) cs := rfl

/-- `foldDigits` distributes over append. -/
theorem foldDigits_append (acc : Nat) (A B : List Char) :
    foldDigits acc (A ++ B) = foldDigits (foldDigits acc A) B := by
  induction A generalizing acc with
  | nil => rfl
  | cons c cs ih => rw [List.cons_append, foldDigits_cons, foldDigits_cons, ih]

/-- Folding the rendered digits of `n` on top of `acc` yields
`acc * 10 ^ digits + n`. -/
theorem foldDigits_natDigitsAux :
    ∀ fuel n acc, n ≤ fuel →
      foldDigits acc (natDigitsAux fuel n) =
        acc * 10 ^ (natDigitsAux fuel n).length + n := by
  intro fuel
  induction fuel with
  | zero =>
    intro n acc h
    interval_cases n
    rw [show natDigitsAux 0 0 = [] from rfl, foldDigits_nil]
    simp
  | succ f ih =>
    intro n acc h
    by_cases hn : n = 0
    · subst hn
      rw [show natDigitsAux (f + 1) 0 = [] from rfl, foldDigits_nil]
      simp
    · have hdiv : n / 10 ≤ f := by
        have := Nat.div_lt_self (Nat.pos_of_ne_zero hn) (by norm_num : (1 : Nat) < 10)
        omega
      rw [show natDigitsAux (f + 1) n =
            natDigitsAux f (n / 10) ++ [digitChar (n % 10)] by
          rw [natDigitsAux, if_neg hn]]
      rw [foldDigits_append, ih (n / 10) acc hdiv, foldDigits_cons, foldDigits_nil]
      rw [digitVal_digitChar (n % 10) (Nat.mod_lt _ (by omega))]
      rw [List.length_append, List.length_cons, List.length_nil]
      have h1 : (acc * 10 ^ (natDigitsAux f (n / 10)).length + n / 10) * 10 + n % 10 =
          acc * 10 ^ ((natDigitsAux f (n / 10)).length + (0 + 1)) + (10 * (n / 10) + n % 10) := by
        ring
      rw [h1, Nat.div_add_mod]

/-- Folding the rendered digits of `n` from zero recovers `n`. -/
theorem foldDigits_renderNat (n : Nat) : foldDigits 0 (renderNat n) = n := by
  unfold renderNat
  by_cases hn : n = 0
  · subst hn; rw [if_pos rfl]; decide
  · rw [if_neg hn, foldDigits_natDigitsAux n n 0 le_rfl]
    simp

/-- `takeDigits` splits a rendered digit run followed by a non-digit. -/
theorem takeDigits_append (A B : List Char) (hA : ∀ c ∈ A, isDigitChar c = true)
    (hB : headNotDigit B = true) : takeDigits (A ++ B) = (A, B) := by
  induction A with
  | nil =>
    cases B with
    | nil => rfl
    | cons b bs =>
      have hb : isDigitChar b = false := by
        simpa [headNotDigit] using hB
      simp [takeDigits, hb]
  | cons c cs ih =>
    have hc : isDigitChar c = true := hA c (by simp)
    have ihcs := ih (fun x hx => hA x (by simp [hx]))
    simp [takeDigits, hc, ihcs]

/-- `parseNat` inverts `renderNat` when the following text does not start
with a digit. -/
theorem parseNat_renderNat (n : Nat) (B : List Char) (hB : headNotDigit B = true) :
    parseNat (renderNat n ++ B) = some (n, B) := by
  unfold parseNat
  rw [takeDigits_append (renderNat n) B (renderNat_all_digits n) hB]
  obtain ⟨c, cs, hc⟩ := List.exists_cons_of_ne_nil (renderNat_ne_nil n)
  rw [hc]
  show some (foldDigits 0 (c :: cs), B) = some (n, B)
  rw [← hc, foldDigits_renderNat]

/-! ### Correctness of the string escaping against the string parser -/

/-- Parsing a rendered lowercase hex digit recovers its value. -/
theorem hexVal_lowerHexDigit (d : Nat) (h : d < 16) : hexVal (lowerHexDigit d) = some d := by
  interval_cases d <;> decide

/-- One-step reduction of `parseStringBody` on a `\u` escape head. -/
theorem parseStringBody_u (h1 h2 h3 h4 : Char) (tl : List Char) :
    parseStringBody ('\\' :: 'u' :: h1 :: h2 :: h3 :: h4 :: tl) =
      match hexVal h1, hexVal h2, hexVal h3, hexVal h4 with
      | some a, some b, some c2, some d =>
        (parseStringBody tl).map
          (fun p => (Char.ofNat (4096 * a + 256 * b + 16 * c2 + d) :: p.1, p.2))
      | _, _, _, _ => none := by
  rw [parseStringBody.eq_def]
  rfl

/-- Parsing one escaped character consumes exactly its escape sequence. -/
theorem parseStringBody_escChar (c : Char) (tl : List Char) :
    parseStringBody (escChar c ++ tl) =
      (parseStringBody tl).map (fun p => (c :: p.1, p.2)) := by
  by_cases h1 : c = '"'
  · subst h1
    rw [show escChar '"' = ['\\', '"'] from rfl]
    simp only [List.cons_append, List.nil_append]
    rw [parseStringBody.eq_def]; rfl
  · by_cases h2 : c = '\\'
    · subst h2
      rw [show escChar '\\' = ['\\', '\\'] from rfl]
      simp only [List.cons_append, List.nil_append]
      rw [parseStringBody.eq_def]; rfl
    · by_cases h3 : c = '\n'
      · subst h3
        rw [show escChar '\n' = ['\\', 'n'] from rfl]
        simp only [List.cons_append, List.nil_append]
        rw [parseStringBody.eq_def]; rfl
      · by_cases h4 : c = '\r'
        · subst h4
          rw [show escChar '\r' = ['\\', 'r'] from rfl]
          simp only [List.cons_append, List.nil_append]
          rw [parseStringBody.eq_def]; rfl
        · by_cases h5 : c = '\t'
          · subst h5
            rw [show escChar '\t' = ['\\', 't'] from rfl]
            simp only [List.cons_append, List.nil_append]
            rw [parseStringBody.eq_def]; rfl
          · by_cases h6 : c.toNat = 8
            · have hc : c = Char.ofNat 8 := by rw [← h6, Char.ofNat_toNat]
              subst hc
              rw [show escChar (Char.ofNat 8) = ['\\', 'b'] from rfl]
              simp only [List.cons_append, List.nil_append]
              rw [parseStringBody.eq_def]; rfl
            · by_cases h7 : c.toNat = 12
              · have hc : c = Char.ofNat 12 := by rw [← h7, Char.ofNat_toNat]
                subst hc
                rw [show escChar (Char.ofNat 12) = ['\\', 'f'] from rfl]
                simp only [List.cons_append, List.nil_append]
                rw [parseStringBody.eq_def]; rfl
              · by_cases h8 : c.toNat < 32
                · rw [show escChar c = ['\\', 'u', '0', '0', lowerHexDigit (c.toNat / 16),
                      lowerHexDigit (c.toNat % 16)] by
                    simp [escChar, h1, h2, h3, h4, h5, h6, h7, h8]]
                  have hdiv : c.toNat / 16 < 16 := by omega
                  have hmod : c.toNat % 16 < 16 := by omega
                  simp only [List.cons_append, List.nil_append]
                  rw [parseStringBody_u]
                  rw [show hexVal '0' = some 0 from rfl,
                    hexVal_lowerHexDigit _ hdiv, hexVal_lowerHexDigit _ hmod]
                  have hch : Char.ofNat (4096 * 0 + 256 * 0 + 16 * (c.toNat / 16) +
                      c.toNat % 16) = c := by
                    rw [show 4096 * 0 + 256 * 0 + 16 * (c.toNat / 16) + c.toNat % 16
                        = c.toNat by omega, Char.ofNat_toNat]
                  show (parseStringBody tl).map
                      (fun p => (Char.ofNat (4096 * 0 + 256 * 0 + 16 * (c.toNat / 16) +
                        c.toNat % 16) :: p.1, p.2)) =
                    (parseStringBody tl).map (fun p => (c :: p.1, p.2))
                  rw [hch]
                · rw [show escChar c = [c] by
                    simp [escChar, h1, h2, h3, h4, h5, h6, h7, h8]]
                  simp only [List.cons_append, List.nil_append]
                  rw [parseStringBody.eq_def]
                  simp only [if_neg h1, if_neg h2]

/-- Parsing an escaped string body up to the closing quote recovers the
original characters. -/
theorem parseStringBody_escChars (s : List Char) (tl : List Char) :
    parseStringBody (escChars s ++ '"' :: tl) = some (s, tl) := by
  induction s with
  | nil =>
    rw [show escChars [] = [] from rfl, List.nil_append, parseStringBody.eq_def]
    rfl
  | cons c cs ih =>
    rw [show escChars (c :: cs) = escChar c ++ escChars cs from rfl, List.append_assoc,
      parseStringBody_escChar c (escChars cs ++ '"' :: tl), ih]
    rfl

/-! ### Leading characters of rendered values, and whitespace skipping -/

/-- `skipWs` keeps a non-whitespace head. -/
theorem skipWs_not_ws (c : Char) (cs : List Char) (h : isWsChar c = false) :
    skipWs (c :: cs) = c :: cs := by
  rw [skipWs.eq_def]
  simp only [h, Bool.false_eq_true, if_false]

/-- `skipWs` drops a whitespace head. -/
theorem skipWs_ws (c : Char) (cs : List Char) (h : isWsChar c = true) :
    skipWs (c :: cs) = skipWs cs := by
  rw [skipWs.eq_def]
  simp only [h, if_true]

/-- `skipWs` never lengthens the input. -/
theorem skipWs_length (cs : List Char) : (skipWs cs).length ≤ cs.length := by
  induction cs with
  | nil => rw [show skipWs [] = [] from by rw [skipWs.eq_def]]
  | cons c cs ih =>
    by_cases h : isWsChar c
    · rw [skipWs_ws c cs h]
      simp only [List.length_cons]
      omega
    · rw [skipWs_not_ws c cs (by simpa using h)]

/-- A digit character is none of the parser's structural characters and is
not whitespace. -/
theorem isDigitChar_facts (c : Char) (h : isDigitChar c = true) :
    c ≠ 'n' ∧ c ≠ 't' ∧ c ≠ 'f' ∧ c ≠ '"' ∧ c ≠ '[' ∧ c ≠ '{' ∧ c ≠ '-' ∧
      isWsChar c = false ∧ c ≠ ']' ∧ c ≠ '}' := by
  refine ⟨?_, ?_, ?_, ?_, ?_, ?_, ?_, ?_, ?_, ?_⟩
  · intro hc; subst hc; exact absurd h (by decide)
  · intro hc; subst hc; exact absurd h (by decide)
  · intro hc; subst hc; exact absurd h (by decide)
  · intro hc; subst hc; exact absurd h (by decide)
  · intro hc; subst hc; exact absurd h (by decide)
  · intro hc; subst hc; exact absurd h (by decide)
  · intro hc; subst hc; exact absurd h (by decide)
  · cases hw : isWsChar c
    · rfl
    · exfalso
      have : ((c = ' ' ∨ c = '\t') ∨ c = '\n') ∨ c = '\r' := by
        simpa [isWsChar] using hw
      rcases this with ((rfl | rfl) | rfl) | rfl <;> exact absurd h (by decide)
  · intro hc; subst hc; exact absurd h (by decide)
  · intro hc; subst hc; exact absurd h (by decide)

/-- Every rendered JSON value starts with a character that is not
whitespace and not a closing bracket or brace. -/
theorem renderJson_head (v : JsonVal) :
    ∃ c cs, renderJson v = c :: cs ∧ isWsChar c = false ∧ c ≠ ']' ∧ c ≠ '}' := by
  cases v with
  | null => exact ⟨'n', _, rfl, by decide, by decide, by decide⟩
  | bool b =>
    cases b with
    | false => exact ⟨'f', _, rfl, by decide, by decide, by decide⟩
    | true => exact ⟨'t', _, rfl, by decide, by decide, by decide⟩
  | num n =>
    cases n with
    | ofNat m =>
      obtain ⟨c, cs, hc⟩ := List.exists_cons_of_ne_nil (renderNat_ne_nil m)
      have hd : isDigitChar c = true := renderNat_all_digits m c (by rw [hc]; simp)
      obtain ⟨-, -, -, -, -, -, -, hws, hrb, hcb⟩ := isDigitChar_facts c hd
      exact ⟨c, cs, by rw [show renderJson (.num (.ofNat m)) = renderNat m from rfl, hc],
        hws, hrb, hcb⟩
    | negSucc m => exact ⟨'-', _, rfl, by decide, by decide, by decide⟩
  | str s => exact ⟨'"', _, rfl, by decide, by decide, by decide⟩
  | arr xs => exact ⟨'[', _, rfl, by decide, by decide, by decide⟩
  | obj fs => exact ⟨'{', _, rfl, by decide, by decide, by decide⟩

/-- Rendered values are nonempty. -/
theorem renderJson_length_pos (v : JsonVal) : 1 ≤ (renderJson v).length := by
  obtain ⟨c, cs, hc, -, -, -⟩ := renderJson_head v
  rw [hc]
  simp

/-- `skipWs` is the identity on a rendered value followed by anything. -/
theorem skipWs_render (v : JsonVal) (rest : List Char) :
    skipWs (renderJson v ++ rest) = renderJson v ++ rest := by
  obtain ⟨c, cs, hc, hws, -, -⟩ := renderJson_head v
  rw [hc, List.cons_append, skipWs_not_ws _ _ hws]

/-- A rendered nonempty array-element list starts like its first rendered
element. -/
theorem renderArr_cons_head (x : JsonVal) (xs : List JsonVal) :
    ∃ c cs, renderArr (x :: xs) = c :: cs ∧ isWsChar c = false ∧ c ≠ ']' ∧ c ≠ '}' := by
  obtain ⟨c, cs, hc, h1, h2, h3⟩ := renderJson_head x
  cases xs with
  | nil =>
    exact ⟨c, cs, by rw [show renderArr [x] = renderJson x from rfl, hc], h1, h2, h3⟩
  | cons y ys =>
    refine ⟨c, cs ++ ',' :: ' ' :: renderArr (y :: ys), ?_, h1, h2, h3⟩
    rw [show renderArr (x :: y :: ys) = renderJson x ++ ',' :: ' ' :: renderArr (y :: ys)
        from rfl, hc, List.cons_append]

/-- A rendered nonempty field list starts with a double quote. -/
theorem renderObj_cons_head (k : String) (v : JsonVal) (fs : List (String × JsonVal)) :
    ∃ cs, renderObj ((k, v) :: fs) = '"' :: cs := by
  cases fs with
  | nil =>
    exact ⟨(escChars k.data ++ ['"']) ++ ':' :: ' ' :: renderJson v,
      by rw [show renderObj [(k, v)] =
          '"' :: (escChars k.data ++ ['"']) ++ ':' :: ' ' :: renderJson v from rfl,
        List.cons_append]⟩
  | cons f fs' =>
    exact ⟨((escChars k.data ++ ['"']) ++ ':' :: ' ' :: renderJson v) ++
        ',' :: ' ' :: renderObj (f :: fs'),
      by rw [show renderObj ((k, v) :: f :: fs') =
          ('"' :: (escChars k.data ++ ['"']) ++ ':' :: ' ' :: renderJson v) ++
            ',' :: ' ' :: renderObj (f :: fs') from rfl,
        List.cons_append, List.cons_append]⟩

/-! ### Step equations of the mutual JSON parser -/

/-- The parser fails with exhausted fuel. -/
theorem parseVal_zero (cs : List Char) : parseVal 0 cs = none := by
  rw [parseVal.eq_def]

/-- One step of `parseVal` with fuel available. -/
theorem parseVal_succ (fuel : Nat) (cs : List Char) :
    parseVal (fuel + 1) cs =
      match skipWs cs with
      | [] => none
      | c :: rest =>
        if c = 'n' then (expectChars ['u', 'l', 'l'] rest).map (fun r => (JsonVal.null, r))
        else if c = 't' then
          (expectChars ['r', 'u', 'e'] rest).map (fun r => (JsonVal.bool true, r))
        else if c = 'f' then
          (expectChars ['a', 'l', 's', 'e'] rest).map (fun r => (JsonVal.bool false, r))
        else if c = '"' then
          (parseStringBody rest).map (fun p => (JsonVal.str (String.mk p.1), p.2))
        else if c = '[' then
          match skipWs rest with
          | ']' :: r => some (JsonVal.arr [], r)
          | r => (parseElems fuel r).map (fun p => (JsonVal.arr p.1, p.2))
        else if c = '{' then
          match skipWs rest with
          | '}' :: r => some (JsonVal.obj [], r)
          | r => (parseFields fuel r).map (fun p => (JsonVal.obj p.1, p.2))
        else if c = '-' then (parseNat rest).map (fun p => (JsonVal.num (-(p.1 : Int)), p.2))
        else if isDigitChar c then
          (parseNat (c :: rest)).map (fun p => (JsonVal.num (p.1 : Int), p.2))
        else none := by
  rw [parseVal.eq_def]

/-- One step of `parseElems` with fuel available. -/
theorem parseElems_succ (fuel : Nat) (cs : List Char) :
    parseElems (fuel + 1) cs =
      match parseVal fuel cs with
      | none => none
      | some (v, rest) =>
        match skipWs rest with
        | ',' :: r =>
          match parseElems fuel r with
          | some (vs, r2) => some (v :: vs, r2)
          | none => none
        | ']' :: r => some ([v], r)
        | _ => none := by
  rw [parseElems.eq_def]

/-- One step of `parseFields` with fuel available. -/
theorem parseFields_succ (fuel : Nat) (cs : List Char) :
    parseFields (fuel + 1) cs =
      match skipWs cs with
      | '"' :: rest =>
        match parseStringBody rest with
        | none => none
        | some (kchars, rest2) =>
          match skipWs rest2 with
          | ':' :: r =>
            match parseVal fuel r with
            | none => none
            | some (v, rest3) =>
              match skipWs rest3 with
              | ',' :: r2 =>
                match parseFields fuel r2 with
                | some (fs, r3) => some ((String.mk kchars, v) :: fs, r3)
                | none => none
              | '}' :: r2 => some ([(String.mk kchars, v)], r2)
              | _ => none
          | _ => none
      | _ => none := by
  rw [parseFields.eq_def]

/-! ### The parser inverts the renderer -/

/-- Joint correctness of the three mutual parsers on rendered output, by
strong induction on the fuel: with enough fuel, parsing a rendered value
(applied to input whose whitespace-normalization is the rendered text
followed by anything that does not start with a digit) succeeds and
consumes exactly the rendered text. -/
theorem parse_render (fuel : Nat) :
    (∀ cs v rest, skipWs cs = renderJson v ++ rest → headNotDigit rest = true →
      2 * cs.length < fuel → parseVal fuel cs = some (v, rest)) ∧
    (∀ cs xs rest, xs ≠ [] → skipWs cs = renderArr xs ++ ']' :: rest →
      2 * cs.length + 1 < fuel → parseElems fuel cs = some (xs, rest)) ∧
    (∀ cs fs rest, fs ≠ [] → skipWs cs = renderObj fs ++ '}' :: rest →
      2 * cs.length + 1 < fuel → parseFields fuel cs = some (fs, rest)) := by
  induction fuel using Nat.strong_induction_on with
  | _ fuel ih =>
  refine ⟨?_, ?_, ?_⟩
  · -- parseVal on a rendered value
    intro cs v rest hshape hnd hlen
    cases fuel with
    | zero => omega
    | succ f =>
      have hlskip := skipWs_length cs
      have hlshape : (skipWs cs).length = (renderJson v).length + rest.length := by
        rw [hshape, List.length_append]
      rw [parseVal_succ, hshape]
      cases v with
      | null =>
        rw [show renderJson JsonVal.null ++ rest = 'n' :: 'u' :: 'l' :: 'l' :: rest from rfl]
        show (expectChars ['u', 'l', 'l'] ('u' :: 'l' :: 'l' :: rest)).map
            (fun r => (JsonVal.null, r)) = some (JsonVal.null, rest)
        rw [show expectChars ['u', 'l', 'l'] ('u' :: 'l' :: 'l' :: rest) = some rest from rfl]
        rfl
      | bool b =>
        cases b with
        | true =>
          rw [show renderJson (JsonVal.bool true) ++ rest
              = 't' :: 'r' :: 'u' :: 'e' :: rest from rfl]
          show (expectChars ['r', 'u', 'e'] ('r' :: 'u' :: 'e' :: rest)).map
              (fun r => (JsonVal.bool true, r)) = some (JsonVal.bool true, rest)
          rw [show expectChars ['r', 'u', 'e'] ('r' :: 'u' :: 'e' :: rest) = some rest from rfl]
          rfl
        | false =>
          rw [show renderJson (JsonVal.bool false) ++ rest
              = 'f' :: 'a' :: 'l' :: 's' :: 'e' :: rest from rfl]
          show (expectChars ['a', 'l', 's', 'e'] ('a' :: 'l' :: 's' :: 'e' :: rest)).map
              (fun r => (JsonVal.bool false, r)) = some (JsonVal.bool false, rest)
          rw [show expectChars ['a', 'l', 's', 'e'] ('a' :: 'l' :: 's' :: 'e' :: rest)
              = some rest from rfl]
          rfl
      | str s =>
        rw [show renderJson (JsonVal.str s) ++ rest
            = '"' :: (escChars s.data ++ '"' :: rest) by
          rw [show renderJson (JsonVal.str s) = '"' :: (escChars s.data ++ ['"']) from rfl]
          simp [List.append_assoc]]
        show (parseStringBody (escChars s.data ++ '"' :: rest)).map
            (fun p => (JsonVal.str (String.mk p.1), p.2)) = some (JsonVal.str s, rest)
        rw [parseStringBody_escChars]
        rfl
      | num n =>
        cases n with
        | ofNat m =>
          obtain ⟨c, cs', hc⟩ := List.exists_cons_of_ne_nil (renderNat_ne_nil m)
          have hd : isDigitChar c = true := renderNat_all_digits m c (by rw [hc]; simp)
          obtain ⟨hn1, hn2, hn3, hn4, hn5, hn6, hn7, -, -, -⟩ := isDigitChar_facts c hd
          rw [show renderJson (JsonVal.num (Int.ofNat m)) = renderNat m from rfl, hc,
            List.cons_append]
          simp only [if_neg hn1, if_neg hn2, if_neg hn3, if_neg hn4, if_neg hn5,
            if_neg hn6, if_neg hn7, hd, if_pos]
          rw [← List.cons_append, ← hc, parseNat_renderNat m rest hnd]
          rfl
        | negSucc m =>
          rw [show renderJson (JsonVal.num (Int.negSucc m)) ++ rest
              = '-' :: (renderNat (m + 1) ++ rest) by
            rw [show renderJson (JsonVal.num (Int.negSucc m))
                = '-' :: renderNat (m + 1) from rfl, List.cons_append]]
          show (parseNat (renderNat (m + 1) ++ rest)).map
              (fun p => (JsonVal.num (-(p.1 : Int)), p.2))
            = some (JsonVal.num (Int.negSucc m), rest)
          rw [parseNat_renderNat (m + 1) rest hnd]
          show some (JsonVal.num (-((m + 1 : Nat) : Int)), rest)
            = some (JsonVal.num (Int.negSucc m), rest)
          have hneg : -(((m + 1 : Nat) : Int)) = Int.negSucc m := by
            rw [Int.negSucc_eq]
            push_cast
            ring
          rw [hneg]
      | arr xs =>
        cases xs with
        | nil =>
          rw [show renderJson (JsonVal.arr []) ++ rest = '[' :: ']' :: rest from rfl]
          show (match skipWs (']' :: rest) with
            | ']' :: r => some (JsonVal.arr [], r)
            | r => (parseElems f r).map (fun p => (JsonVal.arr p.1, p.2)))
            = some (JsonVal.arr [], rest)
          rw [skipWs_not_ws ']' rest (by rfl)]
          rfl
        | cons x xs' =>
          obtain ⟨c0, cs0, hc0, hws0, hrb0, -⟩ := renderArr_cons_head x xs'
          have hlarr : (renderJson (JsonVal.arr (x :: xs'))).length
              = (renderArr (x :: xs')).length + 2 := by
            rw [show renderJson (JsonVal.arr (x :: xs'))
                = '[' :: (renderArr (x :: xs') ++ [']']) from rfl]
            simp
          rw [show renderJson (JsonVal.arr (x :: xs')) ++ rest
              = '[' :: (renderArr (x :: xs') ++ ']' :: rest) by
            rw [show renderJson (JsonVal.arr (x :: xs'))
                = '[' :: (renderArr (x :: xs') ++ [']']) from rfl]
            simp [List.append_assoc]]
          show (match skipWs (renderArr (x :: xs') ++ ']' :: rest) with
            | ']' :: r => some (JsonVal.arr [], r)
            | r => (parseElems f r).map (fun p => (JsonVal.arr p.1, p.2)))
            = some (JsonVal.arr (x :: xs'), rest)
          have hskip : skipWs (renderArr (x :: xs') ++ ']' :: rest)
              = renderArr (x :: xs') ++ ']' :: rest := by
            rw [hc0, List.cons_append, skipWs_not_ws _ _ hws0]
          rw [hskip]
          have helems := (ih f (by omega)).2.1
            (renderArr (x :: xs') ++ ']' :: rest) (x :: xs') rest
            (List.cons_ne_nil x xs')
            (by rw [hskip])
            (by simp only [List.length_append, List.length_cons]; omega)
          split
          · rename_i r heq
            rw [hc0, List.cons_append] at heq
            exact absurd (List.head_eq_of_cons_eq heq) hrb0
          · rw [helems]
            rfl
      | obj fs =>
        cases fs with
        | nil =>
          rw [show renderJson (JsonVal.obj []) ++ rest = '{' :: '}' :: rest from rfl]
          show (match skipWs ('}' :: rest) with
            | '}' :: r => some (JsonVal.obj [], r)
            | r => (parseFields f r).map (fun p => (JsonVal.obj p.1, p.2)))
            = some (JsonVal.obj [], rest)
          rw [skipWs_not_ws '}' rest (by rfl)]
          rfl
        | cons g fs' =>
          obtain ⟨k, v⟩ := g
          obtain ⟨cs0, hc0⟩ := renderObj_cons_head k v fs'
          have hlobj : (renderJson (JsonVal.obj ((k, v) :: fs'))).length
              = (renderObj ((k, v) :: fs')).length + 2 := by
            rw [show renderJson (JsonVal.obj ((k, v) :: fs'))
                = '{' :: (renderObj ((k, v) :: fs') ++ ['}']) from rfl]
            simp
          rw [show renderJson (JsonVal.obj ((k, v) :: fs')) ++ rest
              = '{' :: (renderObj ((k, v) :: fs') ++ '}' :: rest) by
            rw [show renderJson (JsonVal.obj ((k, v) :: fs'))
                = '{' :: (renderObj ((k, v) :: fs') ++ ['}']) from rfl]
            simp [List.append_assoc]]
          show (match skipWs (renderObj ((k, v) :: fs') ++ '}' :: rest) with
            | '}' :: r => some (JsonVal.obj [], r)
            | r => (parseFields f r).map (fun p => (JsonVal.obj p.1, p.2)))
            = some (JsonVal.obj ((k, v) :: fs'), rest)
          have hskip : skipWs (renderObj ((k, v) :: fs') ++ '}' :: rest)
              = renderObj ((k, v) :: fs') ++ '}' :: rest := by
            rw [hc0, List.cons_append, skipWs_not_ws _ _ (by rfl)]
          rw [hskip]
          have hfields := (ih f (by omega)).2.2
            (renderObj ((k, v) :: fs') ++ '}' :: rest) ((k, v) :: fs') rest
            (List.cons_ne_nil (k, v) fs')
            (by rw [hskip])
            (by simp only [List.length_append, List.length_cons]; omega)
          split
          · rename_i r heq
            rw [hc0, List.cons_append] at heq
            have : '"' = '}' := List.head_eq_of_cons_eq heq
            exact absurd this (by decide)
          · rw [hfields]
            rfl
  · -- parseElems on a rendered nonempty element list
    intro cs xs rest hxs hshape hlen
    cases fuel with
    | zero => omega
    | succ f =>
      cases xs with
      | nil => exact absurd rfl hxs
      | cons x xs' =>
        have hlskip := skipWs_length cs
        rw [parseElems_succ]
        cases xs' with
        | nil =>
          have hshape' : skipWs cs = renderJson x ++ ']' :: rest := by
            rw [hshape, show renderArr [x] = renderJson x from rfl]
          have hval := (ih f (by omega)).1 cs x (']' :: rest) hshape' (by rfl) (by omega)
          rw [hval]
          show (match skipWs (']' :: rest) with
            | ',' :: r =>
              match parseElems f r with
              | some (vs, r2) => some (x :: vs, r2)
              | none => none
            | ']' :: r => some ([x], r)
            | _ => none) = some ([x], rest)
          rw [skipWs_not_ws ']' rest (by rfl)]
          rfl
        | cons y ys' =>
          have hshape' : skipWs cs
              = renderJson x ++ ',' :: ' ' :: (renderArr (y :: ys') ++ ']' :: rest) := by
            rw [hshape, show renderArr (x :: y :: ys')
                = renderJson x ++ ',' :: ' ' :: renderArr (y :: ys') from rfl]
            simp [List.append_assoc]
          have hlshape : (skipWs cs).length = (renderJson x).length
              + (2 + ((renderArr (y :: ys')).length + (1 + rest.length))) := by
            rw [hshape']
            simp [List.length_append]
            omega
          have hxlen := renderJson_length_pos x
          have hval := (ih f (by omega)).1 cs x
            (',' :: ' ' :: (renderArr (y :: ys') ++ ']' :: rest)) hshape' (by rfl) (by omega)
          rw [hval]
          show (match skipWs (',' :: ' ' :: (renderArr (y :: ys') ++ ']' :: rest)) with
            | ',' :: r =>
              match parseElems f r with
              | some (vs, r2) => some (x :: vs, r2)
              | none => none
            | ']' :: r => some ([x], r)
            | _ => none) = some (x :: y :: ys', rest)
          rw [skipWs_not_ws ',' _ (by rfl)]
          have hskipr : skipWs (' ' :: (renderArr (y :: ys') ++ ']' :: rest))
              = renderArr (y :: ys') ++ ']' :: rest := by
            rw [skipWs_ws _ _ (by rfl)]
            obtain ⟨c1, cs1, hc1, hws1, -, -⟩ := renderArr_cons_head y ys'
            rw [hc1, List.cons_append, skipWs_not_ws _ _ hws1]
          have helems := (ih f (by omega)).2.1
            (' ' :: (renderArr (y :: ys') ++ ']' :: rest)) (y :: ys') rest
            (List.cons_ne_nil y ys') hskipr
            (by simp only [List.length_cons, List.length_append]; omega)
          show (match parseElems f (' ' :: (renderArr (y :: ys') ++ ']' :: rest)) with
            | some (vs, r2) => some (x :: vs, r2)
            | none => none) = some (x :: y :: ys', rest)
          rw [helems]
  · -- parseFields on a rendered nonempty field list
    intro cs fs rest hfs hshape hlen
    cases fuel with
    | zero => omega
    | succ f =>
      cases fs with
      | nil => exact absurd rfl hfs
      | cons g fs' =>
        obtain ⟨k, v⟩ := g
        have hlskip := skipWs_length cs
        rw [parseFields_succ]
        cases fs' with
        | nil =>
          have hshape' : skipWs cs
              = '"' :: (escChars k.data ++ '"' :: ':' :: ' ' :: (renderJson v ++ '}' :: rest)) := by
            rw [hshape, show renderObj [(k, v)]
                = '"' :: (escChars k.data ++ ['"']) ++ ':' :: ' ' :: renderJson v from rfl]
            simp [List.append_assoc]
          have hlshape : (skipWs cs).length
              = 1 + ((escChars k.data).length + (3 + ((renderJson v).length + (1 + rest.length)))) := by
            rw [hshape']
            simp [List.length_append]
            omega
          rw [hshape']
          show (match parseStringBody (escChars k.data ++ '"' :: ':' :: ' ' ::
              (renderJson v ++ '}' :: rest)) with
            | none => none
            | some (kchars, rest2) =>
              match skipWs rest2 with
              | ':' :: r =>
                match parseVal f r with
                | none => none
                | some (w, rest3) =>
                  match skipWs rest3 with
                  | ',' :: r2 =>
                    match parseFields f r2 with
                    | some (gs, r3) => some ((String.mk kchars, w) :: gs, r3)
                    | none => none
                  | '}' :: r2 => some ([(String.mk kchars, w)], r2)
                  | _ => none
              | _ => none) = some ([(k, v)], rest)
          rw [parseStringBody_escChars]
          show (match skipWs (':' :: ' ' :: (renderJson v ++ '}' :: rest)) with
            | ':' :: r =>
              match parseVal f r with
              | none => none
              | some (w, rest3) =>
                match skipWs rest3 with
                | ',' :: r2 =>
                  match parseFields f r2 with
                  | some (gs, r3) => some ((String.mk k.data, w) :: gs, r3)
                  | none => none
                | '}' :: r2 => some ([(String.mk k.data, w)], r2)
                | _ => none
            | _ => none) = some ([(k, v)], rest)
          rw [skipWs_not_ws ':' _ (by rfl)]
          have hskipr : skipWs (' ' :: (renderJson v ++ '}' :: rest))
              = renderJson v ++ '}' :: rest := by
            rw [skipWs_ws _ _ (by rfl), skipWs_render]
          have hval := (ih f (by omega)).1 (' ' :: (renderJson v ++ '}' :: rest)) v
            ('}' :: rest) hskipr (by rfl)
            (by simp only [List.length_cons, List.length_append]; omega)
          show (match parseVal f (' ' :: (renderJson v ++ '}' :: rest)) with
            | none => none
            | some (w, rest3) =>
              match skipWs rest3 with
              | ',' :: r2 =>
                match parseFields f r2 with
                | some (gs, r3) => some ((String.mk k.data, w) :: gs, r3)
                | none => none
              | '}' :: r2 => some ([(String.mk k.data, w)], r2)
              | _ => none) = some ([(k, v)], rest)
          rw [hval]
          show (match skipWs ('}' :: rest) with
            | ',' :: r2 =>
              match parseFields f r2 with
              | some (gs, r3) => some ((String.mk k.data, v) :: gs, r3)
              | none => none
            | '}' :: r2 => some ([(String.mk k.data, v)], r2)
            | _ => none) = some ([(k, v)], rest)
          rw [skipWs_not_ws '}' rest (by rfl)]
          rfl
        | cons g2 fs'' =>
          obtain ⟨k2, v2⟩ := g2
          have hshape' : skipWs cs
              = '"' :: (escChars k.data ++ '"' :: ':' :: ' ' :: (renderJson v ++
                ',' :: ' ' :: (renderObj ((k2, v2) :: fs'') ++ '}' :: rest))) := by
            rw [hshape, show renderObj ((k, v) :: (k2, v2) :: fs'')
                = ('"' :: (escChars k.data ++ ['"']) ++ ':' :: ' ' :: renderJson v) ++
                  ',' :: ' ' :: renderObj ((k2, v2) :: fs'') from rfl]
            simp [List.append_assoc]
          have hlshape : (skipWs cs).length
              = 1 + ((escChars k.data).length + (3 + ((renderJson v).length +
                (2 + ((renderObj ((k2, v2) :: fs'')).length + (1 + rest.length)))))) := by
            rw [hshape']
            simp [List.length_append]
            omega
          rw [hshape']
          show (match parseStringBody (escChars k.data ++ '"' :: ':' :: ' ' ::
              (renderJson v ++ ',' :: ' ' :: (renderObj ((k2, v2) :: fs'') ++ '}' :: rest))) with
            | none => none
            | some (kchars, rest2) =>
              match skipWs rest2 with
              | ':' :: r =>
                match parseVal f r with
                | none => none
                | some (w, rest3) =>
                  match skipWs rest3 with
                  | ',' :: r2 =>
                    match parseFields f r2 with
                    | some (gs, r3) => some ((String.mk kchars, w) :: gs, r3)
                    | none => none
                  | '}' :: r2 => some ([(String.mk kchars, w)], r2)
                  | _ => none
              | _ => none) = some ((k, v) :: (k2, v2) :: fs'', rest)
          rw [parseStringBody_escChars]
          show (match skipWs (':' :: ' ' :: (renderJson v ++
              ',' :: ' ' :: (renderObj ((k2, v2) :: fs'') ++ '}' :: rest))) with
            | ':' :: r =>
              match parseVal f r with
              | none => none
              | some (w, rest3) =>
                match skipWs rest3 with
                | ',' :: r2 =>
                  match parseFields f r2 with
                  | some (gs, r3) => some ((String.mk k.data, w) :: gs, r3)
                  | none => none
                | '}' :: r2 => some ([(String.mk k.data, w)], r2)
                | _ => none
            | _ => none) = some ((k, v) :: (k2, v2) :: fs'', rest)
          rw [skipWs_not_ws ':' _ (by rfl)]
          have hskipr : skipWs (' ' :: (renderJson v ++
              ',' :: ' ' :: (renderObj ((k2, v2) :: fs'') ++ '}' :: rest)))
              = renderJson v ++ ',' :: ' ' :: (renderObj ((k2, v2) :: fs'') ++ '}' :: rest) := by
            rw [skipWs_ws _ _ (by rfl), skipWs_render]
          have hval := (ih f (by omega)).1
            (' ' :: (renderJson v ++ ',' :: ' ' :: (renderObj ((k2, v2) :: fs'') ++ '}' :: rest)))
            v (',' :: ' ' :: (renderObj ((k2, v2) :: fs'') ++ '}' :: rest)) hskipr (by rfl)
            (by simp only [List.length_cons, List.length_append]; omega)
          show (match parseVal f (' ' :: (renderJson v ++
              ',' :: ' ' :: (renderObj ((k2, v2) :: fs'') ++ '}' :: rest))) with
            | none => none
            | some (w, rest3) =>
              match skipWs rest3 with
              | ',' :: r2 =>
                match parseFields f r2 with
                | some (gs, r3) => some ((String.mk k.data, w) :: gs, r3)
                | none => none
              | '}' :: r2 => some ([(String.mk k.data, w)], r2)
              | _ => none) = some ((k, v) :: (k2, v2) :: fs'', rest)
          rw [hval]
          show (match skipWs (',' :: ' ' :: (renderObj ((k2, v2) :: fs'') ++ '}' :: rest)) with
            | ',' :: r2 =>
              match parseFields f r2 with
              | some (gs, r3) => some ((String.mk k.data, v) :: gs, r3)
              | none => none
            | '}' :: r2 => some ([(String.mk k.data, v)], r2)
            | _ => none) = some ((k, v) :: (k2, v2) :: fs'', rest)
          rw [skipWs_not_ws ',' _ (by rfl)]
          have hskipr2 : skipWs (' ' :: (renderObj ((k2, v2) :: fs'') ++ '}' :: rest))
              = renderObj ((k2, v2) :: fs'') ++ '}' :: rest := by
            rw [skipWs_ws _ _ (by rfl)]
            obtain ⟨cs2, hc2⟩ := renderObj_cons_head k2 v2 fs''
            rw [hc2, List.cons_append, skipWs_not_ws _ _ (by rfl)]
          have hfields := (ih f (by omega)).2.2
            (' ' :: (renderObj ((k2, v2) :: fs'') ++ '}' :: rest)) ((k2, v2) :: fs'') rest
            (List.cons_ne_nil (k2, v2) fs'') hskipr2
            (by simp only [List.length_cons, List.length_append]; omega)
          show (match parseFields f (' ' :: (renderObj ((k2, v2) :: fs'') ++ '}' :: rest)) with
            | some (gs, r3) => some ((String.mk k.data, v) :: gs, r3)
            | none => none) = some ((k, v) :: (k2, v2) :: fs'', rest)
          rw [hfields]

/-- `json.loads` inverts `json.dumps`. -/
theorem json_loads_dumps (v : JsonVal) : json_loads (json_dumps v) = some v := by
  unfold json_loads json_dumps
  rw [show (String.mk (renderJson v)).data = renderJson v from rfl]
  have hskip : skipWs (renderJson v) = renderJson v ++ [] := by
    rw [List.append_nil]
    obtain ⟨c, cs, hc, hws, -, -⟩ := renderJson_head v
    rw [hc, skipWs_not_ws _ _ hws]
  have h := (parse_render (2 * (renderJson v).length + 2)).1 (renderJson v) v []
    hskip (by rfl) (by omega)
  rw [h]
  rfl

/-- C7: serializing a mapping and deserializing the result under a response
whose content-type contains "application/json" yields a structurally equal
mapping (serialize then JSON-deserialize is a round trip). -/
theorem c7_serialize_deserialize_roundtrip (st : StatusVal) (ct : String)
    (fields : List (String × JsonVal))
    (h : strContains ct "application/json" = true) :
    deserialize ⟨st, ct⟩ (serialize (.obj fields)) = .ok (.json (.obj fields)) := by
  simp only [deserialize, serialize, h, if_true]
  rw [json_loads_dumps]

/-- C7 witness: a concrete mapping round-trips. -/
theorem c7_serialize_deserialize_roundtrip_witness :
    strContains "application/json" "application/json" = true ∧
    deserialize ⟨.int 200, "application/json"⟩
        (serialize (.obj [("a", .num 1), ("b", .arr [.str "x", .null])]))
      = .ok (.json (.obj [("a", .num 1), ("b", .arr [.str "x", .null])])) :=
  ⟨rfl, c7_serialize_deserialize_roundtrip (.int 200) "application/json"
    [("a", .num 1), ("b", .arr [.str "x", .null])] rfl⟩

end DesignateDns
